import Mathlib

/-!
# unpack: registry-driven decoding of discriminated JSON objects

A shallow embedding of `reflector.go` (package `unpack`) and the properties of
its decoder.  The Go code walks a JSON document that `encoding/json` parsed
into `interface{}` values, looks the discriminator value of every object up in
a `Reflector` (a `map[string]reflect.Type`) and builds a "skeleton": a pointer
to a fresh struct of the registered type whose interface-typed fields hold the
skeletons of the nested objects.

Conventions of the embedding:

* a Go `map[string]T` is an association list `List (String × T)`; `m[k]` is
  `mapGet m k` (first binding), `m[k] = v` is `mapSet m k v`;
* the part of `reflect` that the code consults is carried by `GoType` and
  `StructField` (kind, name, fields, tag, method sets);
* a Go `(interface{}, error)` result, and a panic, are the three constructors
  of `Outcome`;
* `fmt.Println` / `pretty.Println` calls write to standard output only and are
  left out;
* `json.Unmarshal` is outside the package: the parse of the text is a
  parameter of `UnpackSkeleton` and `Unpack`, and the scalar fill is a
  parameter of `Unpack`, which `specFill` models from the specification for
  the round trip;
* the registry is an argument of the decoder; `unpackStructSt` is the decoder
  with the contents of the map threaded through as state.
-/

namespace Unpack

/-! ## Go maps -/

/-- The lookup `v, ok := m[k]` of a Go map. -/
def mapGet {α : Type} : List (String × α) → String → Option α
  | [], _ => none
  | (k, v) :: rest, key => if k = key then some v else mapGet rest key

/-- The assignment `m[k] = v` of a Go map: an existing binding is replaced. -/
def mapSet {α : Type} (m : List (String × α)) (key : String) (v : α) : List (String × α) :=
  (key, v) :: m.filter (fun e => e.1 ≠ key)

/-- The keys of a Go map. -/
def mapKeys {α : Type} (m : List (String × α)) : List String :=
  m.map Prod.fst

/-! ## The part of `reflect` the decoder consults -/

/-- The enumeration `reflect.Kind`, in the order of the Go declaration;
`RawPointer` stands for the last kind, `UnsafePointer`. -/
inductive Kind
  | Invalid | Bool | Int | Int8 | Int16 | Int32 | Int64
  | Uint | Uint8 | Uint16 | Uint32 | Uint64 | Uintptr
  | Float32 | Float64 | Complex64 | Complex128
  | Array | Chan | Func | Interface | Map | Pointer | Slice | String | Struct
  | RawPointer
  deriving DecidableEq, Repr

/-- A `reflect.StructField`, as far as the decoder reads it.
`Tag` holds the key/value pairs of the struct tag (what `StructTag.Get` looks
up), `Kind` is the kind of the field's type, `PkgPath` is empty exactly for an
exported field, and `Methods` is the method set of the field's type when that
type is an interface. -/
structure StructField where
  Name : String
  Tag : List (String × String) := []
  Kind : Kind
  PkgPath : String := ""
  Methods : List String := []
  deriving DecidableEq, Repr

/-- A `reflect.Type`, as far as the decoder reads it.  `Fields` is what
`NumField`/`Field(i)` enumerate (struct kinds only) and `PtrMethods` is the
method set of the pointer type `*T`, the dynamic type of a skeleton node. -/
structure GoType where
  Name : String
  Kind : Kind
  Fields : List StructField := []
  PtrMethods : List String := []
  deriving DecidableEq, Repr

/-- The type `Reflector`, a `map[string]reflect.Type`, by its entries.  The
decoder only reads the map, and a read of the nil map finds no entry, as in
the empty map; `Receiver` tells the two apart where the map is written. -/
abbrev Reflector := List (String × GoType)

/-! ## Documents -/

/-- A value held in an `interface{}` of the document tree.  The first six
constructors are the dynamic types `encoding/json` produces (`nil`, `bool`,
`float64`, `string`, `[]interface{}`, `map[string]interface{}`); `other k` is
a Go value of any other dynamic type, of reflect kind `k`, which therefore
fails every type assertion the decoder makes.  The decoder never inspects a
number, so its payload is an integer. -/
inductive Value
  | null
  | bool (b : Bool)
  | number (x : Int)
  | string (s : String)
  | array (xs : List Value)
  | object (m : List (String × Value))
  | other (k : Kind)

/-- A `map[string]interface{}`. -/
abbrev Object := List (String × Value)

/-- The kind `reflect.ValueOf(v).Kind()` of a document value. -/
def Value.kind : Value → Kind
  | .null => Kind.Invalid
  | .bool _ => Kind.Bool
  | .number _ => Kind.Float64
  | .string _ => Kind.String
  | .array _ => Kind.Slice
  | .object _ => Kind.Map
  | .other k => k

/-! ## Results -/

/-- The errors the package returns. -/
inductive Err
  /-- The discriminator is present but is not a string. -/
  | keyNotString (key : String)
  /-- No registry entry for the discriminator value (`UnknownDiscriminator`). -/
  | noTemplate (key templateKey : String)
  /-- An interface field has no entry in the object (`MissingField`). -/
  | missingField (name key templateKey : String)
  /-- The entry of an interface field is not an object (`NotAnObject`). -/
  | notUnpackable (name key templateKey : String)
  /-- A fixed-size array field (`UnsupportedFieldKind`). -/
  | arraysNotSupported
  /-- A struct-kind value that is not a `map[string]interface{}`
  (`NotAnObjectMap`). -/
  | badObjectMap
  /-- The text is not JSON; `cause` is the error of `json.Unmarshal`. -/
  | parseError (cause : String)
  /-- The text is JSON but its top-level value is not an object. -/
  | nonObjectJSON
  /-- The scalar fill of the skeleton failed; `cause` is the error of
  `json.Unmarshal`. -/
  | fillError (cause : String)
  deriving DecidableEq, Repr

/-- The text of each error, as the `fmt.Errorf` / `errors.New` calls build it. -/
def Err.message : Err → String
  | .keyNotString key => "field '" ++ key ++ "' not found in object"
  | .noTemplate key templateKey =>
      "no template for reflector key '" ++ key ++ ": \"" ++ templateKey ++ "\"'"
  | .missingField name key templateKey =>
      "expected field '" ++ name ++ "' is missing in object with '" ++ key ++ ": \""
        ++ templateKey ++ "\"'"
  | .notUnpackable name key templateKey =>
      "field '" ++ name ++ "' in object with '" ++ key ++ ": \"" ++ templateKey
        ++ "\"' is not unpackable object"
  | .arraysNotSupported => "unpacker: arrays not supported"
  | .badObjectMap => "problem with JSON-parsed object map"
  | .parseError cause => "unpacker error parsing JSON: " ++ cause
  | .nonObjectJSON => "cannot unpack non-object JSON value"
  | .fillError cause => "unpacker error parsing JSON into skeleton: " ++ cause

/-- The panics the package can raise: its own four, the two of
`reflect.Value.Set`, and the one of the Go runtime on a write to a nil map. -/
inductive Panic
  /-- `Add` of a template that is not a struct. -/
  | nonStructTemplate
  /-- `Add` of a name that is already registered. -/
  | templateExists (name : String)
  /-- A registry entry that is not a struct type. -/
  | internalNonStruct
  /-- A slice field. -/
  | slice
  /-- `Set` on an unexported field. -/
  | setUnexported (field : String)
  /-- `Set` of a value whose type does not implement the field's interface. -/
  | setNotAssignable (field : String)
  /-- The assignment `r[name] = typ` on the nil map. -/
  | nilMapAssignment
  deriving DecidableEq, Repr

/-- The text of the package's own panics. -/
def Panic.message : Panic → String
  | .nonStructTemplate => "cannot unpack into a non-struct type"
  | .templateExists name => "reflector template for '" ++ name ++ "' already exists"
  | .internalNonStruct =>
      "unpack internal error: non-structs should not be allowed as a template"
  | .slice => "slice"
  | .setUnexported _ => "reflect: reflect.Value.Set using value obtained using unexported field"
  | .setNotAssignable _ => "reflect.Set: value is not assignable to the field type"
  | .nilMapAssignment => "assignment to entry in nil map"

/-- What a failing call returns next to its error: `nil`, or the package
variable `zero` (the zero `reflect.Value`). -/
inductive Blank
  | nil
  | zero
  deriving DecidableEq, Repr

/-- The result of a call: `ok v` is `return v, nil`, `fail b e` is
`return b, e` with a non-nil error, `panic p` is a panic. -/
inductive Outcome (α : Type)
  | ok (v : α)
  | fail (b : Blank) (e : Err)
  | panic (p : Panic)

/-- A decoded skeleton.  `ptr typ fields` is the `*T` that `ptr.Interface()`
returns: a pointer to a struct of type `typ` with one slot per field, `none`
for a field still at the zero value of its type and `some s` for an interface
field that was `Set` to `s`.  `generic out` is the `map[string]interface{}`
that the fallback walk builds. -/
inductive Skeleton
  | ptr (typ : GoType) (fields : List (Option Skeleton))
  | generic (out : List (String × Skeleton))

/-- The method set of the dynamic type of a skeleton: that of `*T` for a
typed node, empty for a `map[string]interface{}`. -/
def Skeleton.methods : Skeleton → List String
  | .ptr typ _ => typ.PtrMethods
  | .generic _ => []

/-! ## `fieldName` -/

/-- The constant `tagName`. -/
def tagName : String := "json"

/-- The constant `tagSep`. -/
def tagSep : String := ","

/-- The call `f.Tag.Get(key)`: the value of the tag's `key`, or `""`. -/
def StructField.tagGet (f : StructField) (key : String) : String :=
  (mapGet f.Tag key).getD ""

/-- The first occurrence of `sep` in `s`: the characters before it and after it. -/
def cutAt (sep : List Char) : List Char → Option (List Char × List Char)
  | [] => if sep = [] then some ([], []) else none
  | c :: rest =>
    if sep.isPrefixOf (c :: rest) then some ([], (c :: rest).drop sep.length)
    else (cutAt sep rest).map (fun p => (c :: p.1, p.2))

/-- The call `strings.SplitN(s, sep, 2)` for a non-empty separator. -/
def splitN2 (s sep : String) : List String :=
  match cutAt sep.toList s.toList with
  | none => [s]
  | some (a, b) => [String.mk a, String.mk b]

/-- The function `fieldName`: the json tag up to the first comma when that is
not empty, else the field's name. -/
def fieldName (f : StructField) : String :=
  let tag := f.tagGet tagName
  if tag ≠ "" then
    match splitN2 tag tagSep with
    | s0 :: _ => if s0 ≠ "" then s0 else f.Name
    | [] => f.Name
  else f.Name

/-! ## The decoder -/

/-- The call `val.Field(i).Set(reflect.ValueOf(subVal))` on the field `f` of a
fresh struct: it panics on an unexported field and on a value whose dynamic
type does not implement the field's interface type, and otherwise stores
`subVal` in the field's slot. -/
def setField (f : StructField) (subVal : Skeleton) : Outcome (Option Skeleton) :=
  if f.PkgPath ≠ "" then .panic (.setUnexported f.Name)
  else if f.Methods.all (fun m => subVal.methods.contains m) then .ok (some subVal)
  else .panic (.setNotAssignable f.Name)

set_option linter.unusedVariables false in
mutual

/-- The method `Reflector.unpackStruct`. -/
def unpackStruct (r : Reflector) (key : String) (object : Object) : Outcome Skeleton :=
  match mapGet object key with
  | none => unpackGenericStruct r key object
  | some (.string templateKey) =>
    match mapGet r templateKey with
    | none => .fail .nil (.noTemplate key templateKey)
    | some typ =>
      if typ.Kind ≠ Kind.Struct then .panic .internalNonStruct
      else
        match unpackFields r key object templateKey typ.Fields with
        | .ok fields => .ok (.ptr typ fields)
        | .fail b e => .fail b e
        | .panic p => .panic p
  | some _ => .fail .nil (.keyNotString key)
termination_by (sizeOf object, 3, 0)
decreasing_by
  · exact Prod.Lex.right _ (Prod.Lex.left _ _ (by omega))
  · exact Prod.Lex.right _ (Prod.Lex.left _ _ (by omega))

/-- The loop `for i := 0; i < typ.NumField(); i++` of `unpackStruct`, over the
fields not yet visited; the result lists the slots of those fields. -/
def unpackFields (r : Reflector) (key : String) (object : Object) (templateKey : String)
    (fields : List StructField) : Outcome (List (Option Skeleton)) :=
  match fields with
  | [] => .ok []
  | f :: rest =>
    match unpackField r key object templateKey f with
    | .ok slot =>
      match unpackFields r key object templateKey rest with
      | .ok slots => .ok (slot :: slots)
      | .fail b e => .fail b e
      | .panic p => .panic p
    | .fail b e => .fail b e
    | .panic p => .panic p
termination_by (sizeOf object, 2, fields.length)
decreasing_by
  all_goals simp_wf
  · exact Prod.Lex.right _ (Prod.Lex.left _ _ (by omega))
  · exact Prod.Lex.right _ (Prod.Lex.right _ (by simp))

/-- The body `switch val.Field(i).Kind()` of the loop of `unpackStruct`, for
one field; the result is the slot of that field. -/
def unpackField (r : Reflector) (key : String) (object : Object) (templateKey : String)
    (f : StructField) : Outcome (Option Skeleton) :=
  match f.Kind with
  | Kind.Interface =>
    match h : mapGet object (fieldName f) with
    | none => .fail .zero (.missingField (fieldName f) key templateKey)
    | some (.object subMap) =>
      match unpackStruct r key subMap with
      | .ok subVal => setField f subVal
      | .fail _ e => .fail .zero e
      | .panic p => .panic p
    | some _ => .fail .zero (.notUnpackable (fieldName f) key templateKey)
  | Kind.Array => .fail .zero .arraysNotSupported
  | Kind.Slice => .panic .slice
  | _ => .ok none
termination_by (sizeOf object, 1, 0)
decreasing_by
  have smaller : ∀ (m : Object) (k : String) (v : Value),
      mapGet m k = some v → sizeOf v < sizeOf m := by
    intro m
    induction m with
    | nil => intro k v hv; simp [mapGet] at hv
    | cons e rest ih =>
      intro k v hv
      obtain ⟨k0, v0⟩ := e
      simp only [mapGet] at hv
      split at hv
      · simp only [Option.some.injEq] at hv
        subst hv
        simp only [List.cons.sizeOf_spec, Prod.mk.sizeOf_spec]
        omega
      · have := ih k v hv
        simp only [List.cons.sizeOf_spec]
        omega
  have := smaller _ _ _ h
  simp only [Value.object.sizeOf_spec] at this
  exact Prod.Lex.left _ _ (by omega)

/-- The method `Reflector.unpackGenericStruct`. -/
def unpackGenericStruct (r : Reflector) (keyField : String) (object : Object) :
    Outcome Skeleton :=
  match genericLoop r keyField object [] with
  | .ok out => .ok (.generic out)
  | .fail b e => .fail b e
  | .panic p => .panic p
termination_by (sizeOf object, 2, 0)
decreasing_by
  exact Prod.Lex.right _ (Prod.Lex.left _ _ (by omega))

/-- The loop `for key, val := range object` of `unpackGenericStruct`, over the
entries not yet visited, with the map `out` built so far.  The entries are
visited in the order of the list; by `genericLoop_result` the result is the
same in every order. -/
def genericLoop (r : Reflector) (keyField : String) (entries : Object)
    (out : List (String × Skeleton)) : Outcome (List (String × Skeleton)) :=
  match entries with
  | [] => .ok out
  | (key, val) :: rest =>
    if val.kind = Kind.Struct then
      match val with
      | .object subObj =>
        match unpackStruct r keyField subObj with
        | .ok field => genericLoop r keyField rest (mapSet out key field)
        | .fail _ e => .fail .zero e
        | .panic p => .panic p
      | _ => .fail .zero .badObjectMap
    else genericLoop r keyField rest out
termination_by (sizeOf entries, 1, 0)
decreasing_by
  all_goals simp_wf
  · exact Prod.Lex.left _ _ (by omega)
  · exact Prod.Lex.left _ _ (by omega)
  · exact Prod.Lex.left _ _ (by omega)

end

/-! ## A depth-bounded evaluator

The functions above recurse on the sub-objects of the document.  The
evaluator below runs the same steps with an explicit bound on the depth of the
calls of `unpackStruct`, so that it computes by structural recursion; it
answers `none` when the bound is reached.  `unpackStruct_of_run` shows that
every answer it gives is the result of `unpackStruct`. -/

/-- One field, with `callee` standing for the nested call of `unpackStruct`. -/
def runField (callee : Object → Option (Outcome Skeleton)) (key : String) (object : Object)
    (templateKey : String) (f : StructField) : Option (Outcome (Option Skeleton)) :=
  match f.Kind with
  | Kind.Interface =>
    match mapGet object (fieldName f) with
    | none => some (.fail .zero (.missingField (fieldName f) key templateKey))
    | some (.object subMap) =>
      match callee subMap with
      | none => none
      | some (.ok subVal) => some (setField f subVal)
      | some (.fail _ e) => some (.fail .zero e)
      | some (.panic p) => some (.panic p)
    | some _ => some (.fail .zero (.notUnpackable (fieldName f) key templateKey))
  | Kind.Array => some (.fail .zero .arraysNotSupported)
  | Kind.Slice => some (.panic .slice)
  | _ => some (.ok none)

/-- The field loop, with `callee` standing for the nested call of `unpackStruct`. -/
def runFields (callee : Object → Option (Outcome Skeleton)) (key : String) (object : Object)
    (templateKey : String) : List StructField → Option (Outcome (List (Option Skeleton)))
  | [] => some (.ok [])
  | f :: rest =>
    match runField callee key object templateKey f with
    | none => none
    | some (.ok slot) =>
      match runFields callee key object templateKey rest with
      | none => none
      | some (.ok slots) => some (.ok (slot :: slots))
      | some (.fail b e) => some (.fail b e)
      | some (.panic p) => some (.panic p)
    | some (.fail b e) => some (.fail b e)
    | some (.panic p) => some (.panic p)

/-- The generic loop, with `callee` standing for the nested call of `unpackStruct`. -/
def runGenericLoop (callee : Object → Option (Outcome Skeleton)) :
    Object → List (String × Skeleton) → Option (Outcome (List (String × Skeleton)))
  | [], out => some (.ok out)
  | (key, val) :: rest, out =>
    if val.kind = Kind.Struct then
      match val with
      | .object subObj =>
        match callee subObj with
        | none => none
        | some (.ok field) => runGenericLoop callee rest (mapSet out key field)
        | some (.fail _ e) => some (.fail .zero e)
        | some (.panic p) => some (.panic p)
      | _ => some (.fail .zero .badObjectMap)
    else runGenericLoop callee rest out

/-- The evaluator: `unpackStruct` with at most `depth` nested calls. -/
def runStruct (r : Reflector) (key : String) : Nat → Object → Option (Outcome Skeleton)
  | 0, _ => none
  | depth + 1, object =>
    match mapGet object key with
    | none =>
      match runGenericLoop (runStruct r key depth) object [] with
      | none => none
      | some (.ok out) => some (.ok (.generic out))
      | some (.fail b e) => some (.fail b e)
      | some (.panic p) => some (.panic p)
    | some (.string templateKey) =>
      match mapGet r templateKey with
      | none => some (.fail .nil (.noTemplate key templateKey))
      | some typ =>
        if typ.Kind ≠ Kind.Struct then some (.panic .internalNonStruct)
        else
          match runFields (runStruct r key depth) key object templateKey typ.Fields with
          | none => none
          | some (.ok fields) => some (.ok (.ptr typ fields))
          | some (.fail b e) => some (.fail b e)
          | some (.panic p) => some (.panic p)
    | some _ => some (.fail .nil (.keyNotString key))

/-! ## The registry -/

/-- The kind `reflect.ValueOf(template).Kind()` of a template; `none` is the
nil interface value, whose `reflect.Value` is the zero one. -/
def templateKind : Option GoType → Kind
  | none => Kind.Invalid
  | some typ => typ.Kind

/-- A value of the map type `Reflector`, as the receiver of `Add` and `Init`:
the nil map (`var r Reflector`), or a map made by `make` with its entries.
Both can be read; only a made map can be written. -/
inductive Receiver
  | nilMap
  | made (entries : Reflector)
  deriving DecidableEq, Repr

/-- The entries that a read of the map sees: none for the nil map. -/
def Receiver.entries : Receiver → Reflector
  | .nilMap => []
  | .made entries => entries

/-- The state after a call of `Add` or `Init`: the map, and the panic when the
call did not return. -/
structure Registration where
  registry : Receiver
  panicked : Option Panic
  deriving DecidableEq, Repr

/-- The function `New`: the entries of the map that `make` returns, which
is `Receiver.made New`. -/
def New : Reflector := []

/-- The method `Reflector.Add`; the template is given by its dynamic type.
The lookup `r[name]` reads the nil map as an empty one; the assignment
`r[name] = typ` panics on it. -/
def Add (r : Receiver) (template : Option GoType) : Registration :=
  match template with
  | none => ⟨r, some .nonStructTemplate⟩
  | some typ =>
    if typ.Kind ≠ Kind.Struct then ⟨r, some .nonStructTemplate⟩
    else
      match mapGet r.entries typ.Name with
      | some _ => ⟨r, some (.templateExists typ.Name)⟩
      | none =>
        match r with
        | .nilMap => ⟨.nilMap, some .nilMapAssignment⟩
        | .made entries => ⟨.made (mapSet entries typ.Name typ), none⟩

/-- The method `Reflector.Init`: `Add` for each template in order, up to the
first panic. -/
def Init (r : Receiver) : List (Option GoType) → Registration
  | [] => ⟨r, none⟩
  | t :: rest =>
    match Add r t with
    | ⟨r1, none⟩ => Init r1 rest
    | ⟨r1, some p⟩ => ⟨r1, some p⟩

/-! ## The types and documents of `unpack_test.go` -/

/-- The method set of the interface `Expr`. -/
def exprMethods : List String := ["Which"]

/-- The struct type `BinaryExpr`. -/
def BinaryExpr : GoType :=
  { Name := "BinaryExpr", Kind := Kind.Struct,
    Fields := [
      { Name := "Op", Tag := [("json", "op")], Kind := Kind.String },
      { Name := "LHS", Tag := [("json", "lhs")], Kind := Kind.Interface, Methods := exprMethods },
      { Name := "RHS", Tag := [("json", "rhs")], Kind := Kind.Interface, Methods := exprMethods }],
    PtrMethods := ["Which"] }

/-- The struct type `UnaryExpr`. -/
def UnaryExpr : GoType :=
  { Name := "UnaryExpr", Kind := Kind.Struct,
    Fields := [
      { Name := "Op", Tag := [("json", "op")], Kind := Kind.String },
      { Name := "Operand", Tag := [("json", "operand")], Kind := Kind.Interface,
        Methods := exprMethods }],
    PtrMethods := ["Which"] }

/-- The struct type `ListExpr`; it declares no method. -/
def ListExpr : GoType :=
  { Name := "ListExpr", Kind := Kind.Struct,
    Fields := [
      { Name := "Op", Tag := [("json", "op")], Kind := Kind.String },
      { Name := "Exprs", Tag := [("json", "exprs")], Kind := Kind.Slice }],
    PtrMethods := [] }

/-- The struct type `Terminal`. -/
def Terminal : GoType :=
  { Name := "Terminal", Kind := Kind.Struct,
    Fields := [{ Name := "Body", Tag := [("json", "body")], Kind := Kind.String }],
    PtrMethods := ["Which"] }

/-- The registry of `TestUnpack`:
`New().Init(BinaryExpr{}, UnaryExpr{}, Terminal{}, ListExpr{})`. -/
def testReflector : Reflector :=
  (Init (.made New)
    [some BinaryExpr, some UnaryExpr, some Terminal, some ListExpr]).registry.entries

/-- A document `{"op": "Terminal", "body": body}`. -/
def terminalDoc (body : String) : Object :=
  [("op", .string "Terminal"), ("body", .string body)]

/-- The document `test1`. -/
def test1 : Object :=
  [("op", .string "BinaryExpr"),
   ("lhs", .object (terminalDoc "foo")),
   ("rhs", .object (terminalDoc "bar"))]

/-- The document `test2`. -/
def test2 : Object :=
  [("op", .string "BinaryExpr"),
   ("lhs", .object [("op", .string "UnaryExpr"), ("operand", .object (terminalDoc "foo"))]),
   ("rhs", .object [("op", .string "BinaryExpr"),
                    ("lhs", .object (terminalDoc "bar")),
                    ("rhs", .object (terminalDoc "baz"))])]

/-- The document `test3`. -/
def test3 : Object :=
  [("op", .string "ListExpr"),
   ("exprs", .array [
      .object [("op", .string "UnaryExpr"), ("operand", .object (terminalDoc "foo"))],
      .object [("op", .string "BinaryExpr"),
               ("lhs", .object (terminalDoc "bar")),
               ("rhs", .object (terminalDoc "baz"))]])]

/-- The value of `"operand"` in `test4`: `{"expr": {"op": "Terminal", "body": "nested"}}`. -/
def test4Operand : Object :=
  [("expr", .object (terminalDoc "nested"))]

/-- The document `test4`. -/
def test4 : Object :=
  [("op", .string "UnaryExpr"), ("operand", .object test4Operand)]

/-- The skeleton of a `Terminal`: its one field is a string. -/
def terminalSkeleton : Skeleton := .ptr Terminal [none]

/-- The skeleton that `TestUnpack` expects for `test2`, before the scalar fill. -/
def skeleton2 : Skeleton :=
  .ptr BinaryExpr [none,
    some (.ptr UnaryExpr [none, some terminalSkeleton]),
    some (.ptr BinaryExpr [none, some terminalSkeleton, some terminalSkeleton])]

/-! ## Further examples -/

/-- A struct type with a fixed-size array field after an interface field:
`type Matrix struct { Op string; Left Expr; Cells [4]float64 }`, with json
tags `op`, `left` and `cells`. -/
def Matrix : GoType :=
  { Name := "Matrix", Kind := Kind.Struct,
    Fields := [
      { Name := "Op", Tag := [("json", "op")], Kind := Kind.String },
      { Name := "Left", Tag := [("json", "left")], Kind := Kind.Interface,
        Methods := exprMethods },
      { Name := "Cells", Tag := [("json", "cells")], Kind := Kind.Array }],
    PtrMethods := ["Which"] }

/-- The registry of the tests with `Matrix` added. -/
def matrixReflector : Reflector :=
  (Add (.made testReflector) (some Matrix)).registry.entries

/-- The document `{"op": "Matrix", "left": {"op": "Terminal", "body": "x"},
"cells": [1, 2, 3, 4]}`. -/
def matrixDoc : Object :=
  [("op", .string "Matrix"),
   ("left", .object (terminalDoc "x")),
   ("cells", .array [.number 1, .number 2, .number 3, .number 4])]

/-- The document `{"op": "UnaryExpr"}`: the field `operand` is missing. -/
def missingOperandDoc : Object := [("op", .string "UnaryExpr")]

/-- The document `{"op": "UnaryExpr", "operand": "foo"}`: the field `operand`
is a string. -/
def stringOperandDoc : Object := [("op", .string "UnaryExpr"), ("operand", .string "foo")]

/-- The document `{"op": "Mystery", "body": "foo"}`; no type `Mystery` is
registered. -/
def mysteryDoc : Object := [("op", .string "Mystery"), ("body", .string "foo")]

/-- The document `{"name": "x", "count": 3}`: no discriminator, no nested object. -/
def scalarsDoc : Object := [("name", .string "x"), ("count", .number 3)]

/-- A template that is a pointer to a struct, such as `&Terminal{}`. -/
def terminalPointer : GoType := { Name := "", Kind := Kind.Pointer }

/-- A field without json tag. -/
def untaggedField : StructField := { Name := "Body", Kind := Kind.String }

/-- A field tagged `json:",omitempty"`. -/
def commaField : StructField :=
  { Name := "Operand", Tag := [("json", ",omitempty")], Kind := Kind.Interface,
    Methods := exprMethods }

/-- A field tagged `json:"operand,omitempty"`. -/
def optionField : StructField :=
  { Name := "Operand", Tag := [("json", "operand,omitempty")], Kind := Kind.Interface,
    Methods := exprMethods }

/-! ## The entry points

`UnpackSkeleton` and `Unpack` call `json.Unmarshal` of `encoding/json`, first
to parse the text into an `interface{}` and then to fill the scalar fields of
the skeleton.  Both uses are parameters here: `parse` maps a text to the error
of `json.Unmarshal` or to the parsed value, `fill` maps the text and the
skeleton to the error of `json.Unmarshal` or to the filled object graph. -/

/-- The method `Reflector.UnpackSkeleton`. -/
def UnpackSkeleton (parse : String → Except String Value) (r : Reflector)
    (key src : String) : Outcome Skeleton :=
  match parse src with
  | .error cause => .fail .nil (.parseError cause)
  | .ok jsonVal =>
    match jsonVal with
    | .object object => unpackStruct r key object
    | _ => .fail .nil .nonObjectJSON

set_option linter.dupNamespace false in
/-- The method `Reflector.Unpack`; `γ` is the type of filled object graphs. -/
def Unpack {γ : Type} (parse : String → Except String Value)
    (fill : String → Skeleton → Except String γ) (r : Reflector) (key src : String) :
    Outcome γ :=
  match UnpackSkeleton parse r key src with
  | .ok skeleton =>
    match fill src skeleton with
    | .error cause => .fail .nil (.fillError cause)
    | .ok filled => .ok filled
  | .fail _ err => .fail .nil err
  | .panic p => .panic p

/-! ## Nesting depth and documents of the JSON parser -/

mutual

/-- The nesting depth of a value: a scalar has depth 0, an array or an object
is one level above its deepest member. -/
def Value.depth : Value → Nat
  | .array xs => depthList xs + 1
  | .object m => depthEntries m + 1
  | _ => 0

/-- The largest depth among the elements of an array. -/
def depthList : List Value → Nat
  | [] => 0
  | v :: vs => max v.depth (depthList vs)

/-- The largest depth among the values of an object. -/
def depthEntries : List (String × Value) → Nat
  | [] => 0
  | (_, v) :: es => max v.depth (depthEntries es)

end

mutual

/-- A value that `encoding/json` produces: every part of it is `nil`, a `bool`,
a `float64`, a `string`, a `[]interface{}` or a `map[string]interface{}`. -/
def Value.fromJSON : Value → Bool
  | .array xs => allFromJSON xs
  | .object m => entriesFromJSON m
  | .other _ => false
  | _ => true

/-- Every element of an array is a value of the JSON parser. -/
def allFromJSON : List Value → Bool
  | [] => true
  | v :: vs => v.fromJSON && allFromJSON vs

/-- Every value of an object is a value of the JSON parser. -/
def entriesFromJSON : List (String × Value) → Bool
  | [] => true
  | (_, v) :: es => v.fromJSON && entriesFromJSON es

end

/-- The document of `n` objects `{"op": "UnaryExpr", "operand": ...}` nested
around `{"op": "Terminal", "body": "x"}`. -/
def nestedUnary : Nat → Object
  | 0 => terminalDoc "x"
  | n + 1 => [("op", .string "UnaryExpr"), ("operand", .object (nestedUnary n))]

/-- The skeleton of `nestedUnary n`. -/
def nestedSkeleton : Nat → Skeleton
  | 0 => terminalSkeleton
  | n + 1 => .ptr UnaryExpr [none, some (nestedSkeleton n)]

/-! ## Reordering the entries of objects -/

/-- Two values that differ only in the order in which objects list their
entries, at any nesting level: the relation generated by exchanging two
adjacent entries with different keys, inside objects and arrays. -/
inductive Reordered : Value → Value → Prop
  | same (v : Value) : Reordered v v
  | swap (a b : String × Value) (m : Object) (hkeys : a.1 ≠ b.1) :
      Reordered (.object (a :: b :: m)) (.object (b :: a :: m))
  | entry (k : String) (v1 v2 : Value) (m1 m2 : Object) :
      Reordered v1 v2 → Reordered (.object m1) (.object m2) →
      Reordered (.object ((k, v1) :: m1)) (.object ((k, v2) :: m2))
  | element (v1 v2 : Value) (xs ys : List Value) :
      Reordered v1 v2 → Reordered (.array xs) (.array ys) →
      Reordered (.array (v1 :: xs)) (.array (v2 :: ys))
  | trans (a b c : Value) : Reordered a b → Reordered b c → Reordered a c

/-- Two lookups that agree up to the order of entries. -/
def LookupSame : Option Value → Option Value → Prop
  | none, none => True
  | some v1, some v2 => Reordered v1 v2
  | _, _ => False

/-- The document `test1` with its entries in another order, also inside the
nested objects. -/
def test1Reordered : Object :=
  [("rhs", .object [("body", .string "bar"), ("op", .string "Terminal")]),
   ("op", .string "BinaryExpr"),
   ("lhs", .object (terminalDoc "foo"))]

/-- The document `{"op": 7, "body": "foo"}`: the discriminator is a number. -/
def numberTagDoc : Object := [("op", .number 7), ("body", .string "foo")]

/-- The field `Op string` with tag `json:"op"` of the test types. -/
def opField : StructField := { Name := "Op", Tag := [("json", "op")], Kind := Kind.String }

/-- The field `Operand Expr` with tag `json:"operand"` of `UnaryExpr`. -/
def operandField : StructField :=
  { Name := "Operand", Tag := [("json", "operand")], Kind := Kind.Interface,
    Methods := exprMethods }

/-! ## The decoder with the registry as state

A `Reflector` is a Go map, a reference: a write to it by a nested call would be
seen by the caller and by every later call.  The functions below are the
decoder again, with the contents of the map threaded through: each takes the
contents before the call and returns, next to its result, the contents after
it, and continues after a nested call with the contents that call returned.
The only use the decoder makes of the map is the read `r[templateKey]`. -/

set_option linter.unusedVariables false in
mutual

/-- The method `Reflector.unpackStruct`, with the registry after the call. -/
def unpackStructSt (r : Reflector) (key : String) (object : Object) :
    Outcome Skeleton × Reflector :=
  match mapGet object key with
  | none => unpackGenericStructSt r key object
  | some (.string templateKey) =>
    match mapGet r templateKey with
    | none => (.fail .nil (.noTemplate key templateKey), r)
    | some typ =>
      if typ.Kind ≠ Kind.Struct then (.panic .internalNonStruct, r)
      else
        match unpackFieldsSt r key object templateKey typ.Fields with
        | (.ok fields, r1) => (.ok (.ptr typ fields), r1)
        | (.fail b e, r1) => (.fail b e, r1)
        | (.panic p, r1) => (.panic p, r1)
  | some _ => (.fail .nil (.keyNotString key), r)
termination_by (sizeOf object, 3, 0)
decreasing_by
  · exact Prod.Lex.right _ (Prod.Lex.left _ _ (by omega))
  · exact Prod.Lex.right _ (Prod.Lex.left _ _ (by omega))

/-- The field loop of `unpackStruct`, with the registry after the loop. -/
def unpackFieldsSt (r : Reflector) (key : String) (object : Object) (templateKey : String)
    (fields : List StructField) : Outcome (List (Option Skeleton)) × Reflector :=
  match fields with
  | [] => (.ok [], r)
  | f :: rest =>
    match unpackFieldSt r key object templateKey f with
    | (.ok slot, r1) =>
      match unpackFieldsSt r1 key object templateKey rest with
      | (.ok slots, r2) => (.ok (slot :: slots), r2)
      | (.fail b e, r2) => (.fail b e, r2)
      | (.panic p, r2) => (.panic p, r2)
    | (.fail b e, r1) => (.fail b e, r1)
    | (.panic p, r1) => (.panic p, r1)
termination_by (sizeOf object, 2, fields.length)
decreasing_by
  all_goals simp_wf
  · exact Prod.Lex.right _ (Prod.Lex.left _ _ (by omega))
  · exact Prod.Lex.right _ (Prod.Lex.right _ (by simp))

/-- The switch of the field loop for one field, with the registry after it. -/
def unpackFieldSt (r : Reflector) (key : String) (object : Object) (templateKey : String)
    (f : StructField) : Outcome (Option Skeleton) × Reflector :=
  match f.Kind with
  | Kind.Interface =>
    match h : mapGet object (fieldName f) with
    | none => (.fail .zero (.missingField (fieldName f) key templateKey), r)
    | some (.object subMap) =>
      match unpackStructSt r key subMap with
      | (.ok subVal, r1) => (setField f subVal, r1)
      | (.fail _ e, r1) => (.fail .zero e, r1)
      | (.panic p, r1) => (.panic p, r1)
    | some _ => (.fail .zero (.notUnpackable (fieldName f) key templateKey), r)
  | Kind.Array => (.fail .zero .arraysNotSupported, r)
  | Kind.Slice => (.panic .slice, r)
  | _ => (.ok none, r)
termination_by (sizeOf object, 1, 0)
decreasing_by
  have smaller : ∀ (m : Object) (k : String) (v : Value),
      mapGet m k = some v → sizeOf v < sizeOf m := by
    intro m
    induction m with
    | nil => intro k v hv; simp [mapGet] at hv
    | cons e rest ih =>
      intro k v hv
      obtain ⟨k0, v0⟩ := e
      simp only [mapGet] at hv
      split at hv
      · simp only [Option.some.injEq] at hv
        subst hv
        simp only [List.cons.sizeOf_spec, Prod.mk.sizeOf_spec]
        omega
      · have := ih k v hv
        simp only [List.cons.sizeOf_spec]
        omega
  have := smaller _ _ _ h
  simp only [Value.object.sizeOf_spec] at this
  exact Prod.Lex.left _ _ (by omega)

/-- The method `Reflector.unpackGenericStruct`, with the registry after the call. -/
def unpackGenericStructSt (r : Reflector) (keyField : String) (object : Object) :
    Outcome Skeleton × Reflector :=
  match genericLoopSt r keyField object [] with
  | (.ok out, r1) => (.ok (.generic out), r1)
  | (.fail b e, r1) => (.fail b e, r1)
  | (.panic p, r1) => (.panic p, r1)
termination_by (sizeOf object, 2, 0)
decreasing_by
  exact Prod.Lex.right _ (Prod.Lex.left _ _ (by omega))

/-- The loop of `unpackGenericStruct`, with the registry after the loop. -/
def genericLoopSt (r : Reflector) (keyField : String) (entries : Object)
    (out : List (String × Skeleton)) : Outcome (List (String × Skeleton)) × Reflector :=
  match entries with
  | [] => (.ok out, r)
  | (key, val) :: rest =>
    if val.kind = Kind.Struct then
      match val with
      | .object subObj =>
        match unpackStructSt r keyField subObj with
        | (.ok field, r1) => genericLoopSt r1 keyField rest (mapSet out key field)
        | (.fail _ e, r1) => (.fail .zero e, r1)
        | (.panic p, r1) => (.panic p, r1)
      | _ => (.fail .zero .badObjectMap, r)
    else genericLoopSt r keyField rest out
termination_by (sizeOf entries, 1, 0)
decreasing_by
  all_goals simp_wf
  · exact Prod.Lex.left _ _ (by omega)
  · exact Prod.Lex.left _ _ (by omega)
  · exact Prod.Lex.left _ _ (by omega)

end

/-- The method `Reflector.UnpackSkeleton`, with the registry after the call. -/
def UnpackSkeletonSt (parse : String → Except String Value) (r : Reflector)
    (key src : String) : Outcome Skeleton × Reflector :=
  match parse src with
  | .error cause => (.fail .nil (.parseError cause), r)
  | .ok jsonVal =>
    match jsonVal with
    | .object object => unpackStructSt r key object
    | _ => (.fail .nil .nonObjectJSON, r)

/-! ## Object graphs, their documents and the scalar fill

`Unpack` completes the skeleton with a second `json.Unmarshal` of the same
text.  That pass belongs to `encoding/json`; the functions `fillNode`,
`fillFields`, `fillSlot` and `specFill` model it from the description the
specification gives of it.  `Node` is the typed object graph that results, and
`Serializes` says that a document is the serialization of a graph in the
discriminator convention. -/

mutual

/-- A typed object graph: `ptr typ fields` is a `*T` with the values of the
fields of `T` in order; `raw m` is a `map[string]interface{}` stored as
parsed. -/
inductive Node
  | ptr (typ : GoType) (fields : List FieldVal)
  | raw (m : Object)

/-- The value of one field of a graph node: a scalar, held as the document
value that encodes it, or an interface that holds a node. -/
inductive FieldVal
  | scalar (v : Value)
  | iface (n : Node)

end

/-- The method set of the dynamic type of a node. -/
def Node.methods : Node → List String
  | .ptr typ _ => typ.PtrMethods
  | .raw _ => []

mutual

/-- The skeleton of a graph: the graph without its scalars. -/
def shape : Node → Skeleton
  | .ptr typ fields => .ptr typ (shapeSlots fields)
  | .raw _ => .generic []

/-- The slots of the fields of a node. -/
def shapeSlots : List FieldVal → List (Option Skeleton)
  | [] => []
  | x :: xs => shapeSlot x :: shapeSlots xs

/-- The slot of one field: empty for a scalar, the skeleton of the node for an
interface. -/
def shapeSlot : FieldVal → Option Skeleton
  | .scalar _ => none
  | .iface n => some (shape n)

end

/-- The zero value of a scalar field, as a document value. -/
def zeroValue : Kind → Value
  | Kind.String => .string ""
  | Kind.Bool => .bool false
  | Kind.Int | Kind.Int8 | Kind.Int16 | Kind.Int32 | Kind.Int64 => .number 0
  | Kind.Uint | Kind.Uint8 | Kind.Uint16 | Kind.Uint32 | Kind.Uint64 | Kind.Uintptr => .number 0
  | Kind.Float32 | Kind.Float64 => .number 0
  | _ => .null

mutual

/-- Modelled from the spec: the Structural Scalar Filler, which the source
delegates to `json.Unmarshal(src, &skeleton)`.  It takes the document and the
skeleton and assigns scalar values by name onto the typed nodes, without
changing the type in any polymorphic slot.  A generic map, which the spec
leaves open, becomes the document object as parsed. -/
def fillNode (doc : Object) : Skeleton → Except String Node
  | .ptr typ slots =>
    match fillFields doc typ.Fields slots with
    | .ok fields => .ok (.ptr typ fields)
    | .error cause => .error cause
  | .generic _ => .ok (.raw doc)

/-- Modelled from the spec: the filler on the fields of one node, in order. -/
def fillFields (doc : Object) :
    List StructField → List (Option Skeleton) → Except String (List FieldVal)
  | [], [] => .ok []
  | f :: fs, slot :: slots =>
    match fillSlot doc f slot with
    | .ok x =>
      match fillFields doc fs slots with
      | .ok xs => .ok (x :: xs)
      | .error cause => .error cause
    | .error cause => .error cause
  | _, _ => .error "skeleton does not match its type"

/-- Modelled from the spec: the filler on one field.  An empty slot receives
the document value stored under the serialization name of the field, or stays
at its zero value; a resolved slot is filled from the object stored under that
name. -/
def fillSlot (doc : Object) (f : StructField) : Option Skeleton → Except String FieldVal
  | none => .ok (.scalar ((mapGet doc (fieldName f)).getD (zeroValue f.Kind)))
  | some sub =>
    match mapGet doc (fieldName f) with
    | some (.object m) =>
      match fillNode m sub with
      | .ok n => .ok (.iface n)
      | .error cause => .error cause
    | _ => .error "no object for a resolved slot"

end

/-- Modelled from the spec: the filler as `Unpack` calls it, on the text. -/
def specFill (parse : String → Except String Value) (src : String) (skeleton : Skeleton) :
    Except String Node :=
  match parse src with
  | .ok (.object doc) => fillNode doc skeleton
  | .ok _ => .error "not an object"
  | .error cause => .error cause

mutual

/-- A graph that is well typed for a registry: every node is a pointer to a
struct whose type is registered under its name, with one value per field, each
fitting its field (`fieldTyped`). -/
def Node.typed (r : Reflector) : Node → Bool
  | .ptr typ fields =>
    decide (mapGet r typ.Name = some typ) && decide (typ.Kind = Kind.Struct) &&
      fieldsTyped r typ.Fields fields
  | .raw _ => false

/-- One fitting value per field. -/
def fieldsTyped (r : Reflector) : List StructField → List FieldVal → Bool
  | [], [] => true
  | f :: fs, x :: xs => fieldTyped r f x && fieldsTyped r fs xs
  | _, _ => false

/-- A scalar fits a field that is not an interface, an array or a slice.  A
node fits an exported interface field when the pointer type of the node
implements the interface, and the node is well typed. -/
def fieldTyped (r : Reflector) (f : StructField) : FieldVal → Bool
  | .scalar _ =>
    decide (f.Kind ≠ Kind.Interface) && decide (f.Kind ≠ Kind.Array) &&
      decide (f.Kind ≠ Kind.Slice)
  | .iface n =>
    decide (f.Kind = Kind.Interface) && decide (f.PkgPath = "") &&
      f.Methods.all (fun m => n.methods.contains m) && n.typed r

end

mutual

/-- The document `doc` is the serialization of the graph in the discriminator
convention: the discriminator key carries the name of the type of the node,
and every field is stored under its serialization name (`FieldSerialized`).
The document may hold further entries, in any order. -/
def Serializes (key : String) : Node → Object → Prop
  | .ptr typ fields, doc =>
    mapGet doc key = some (.string typ.Name) ∧ FieldsSerialized key doc typ.Fields fields
  | .raw _, _ => False

/-- Every field of the node is stored in the document. -/
def FieldsSerialized (key : String) (doc : Object) :
    List StructField → List FieldVal → Prop
  | [], [] => True
  | f :: fs, x :: xs =>
    FieldSerialized key (mapGet doc (fieldName f)) x ∧ FieldsSerialized key doc fs xs
  | _, _ => False

/-- The entry of one field: the scalar itself, or the object that serializes
the node. -/
def FieldSerialized (key : String) (entry : Option Value) : FieldVal → Prop
  | .scalar v => entry = some v
  | .iface n =>
    match entry with
    | some (.object sub) => Serializes key n sub
    | _ => False

end

/-- The graph `expected1` of the tests. -/
def expected1 : Node :=
  .ptr BinaryExpr [.scalar (.string "BinaryExpr"),
    .iface (.ptr Terminal [.scalar (.string "foo")]),
    .iface (.ptr Terminal [.scalar (.string "bar")])]

/-- The graph `expected2` of the tests. -/
def expected2 : Node :=
  .ptr BinaryExpr [.scalar (.string "BinaryExpr"),
    .iface (.ptr UnaryExpr [.scalar (.string "UnaryExpr"),
      .iface (.ptr Terminal [.scalar (.string "foo")])]),
    .iface (.ptr BinaryExpr [.scalar (.string "BinaryExpr"),
      .iface (.ptr Terminal [.scalar (.string "bar")]),
      .iface (.ptr Terminal [.scalar (.string "baz")])])]

/-- The graph `&BinaryExpr{Op: "+", LHS: &Terminal{"a"}, RHS: &Terminal{"b"}}`:
its field `Op`, stored under `op`, does not hold the name of its type. -/
def plusExpr : Node :=
  .ptr BinaryExpr [.scalar (.string "+"),
    .iface (.ptr Terminal [.scalar (.string "a")]),
    .iface (.ptr Terminal [.scalar (.string "b")])]

/-! ## Unfolding the decoder -/

theorem unpackStruct_untagged {r : Reflector} {key : String} {object : Object}
    (hkey : mapGet object key = none) :
    unpackStruct r key object = unpackGenericStruct r key object := by
  rw [unpackStruct, hkey]

theorem unpackStruct_unregistered {r : Reflector} {key : String} {object : Object}
    {templateKey : String} (hkey : mapGet object key = some (.string templateKey))
    (hreg : mapGet r templateKey = none) :
    unpackStruct r key object = .fail .nil (.noTemplate key templateKey) := by
  rw [unpackStruct, hkey]
  simp only [hreg]

theorem unpackStruct_tagged {r : Reflector} {key : String} {object : Object}
    {templateKey : String} {typ : GoType}
    (hkey : mapGet object key = some (.string templateKey))
    (hreg : mapGet r templateKey = some typ) (hstruct : typ.Kind = Kind.Struct) :
    unpackStruct r key object =
      match unpackFields r key object templateKey typ.Fields with
      | .ok fields => .ok (.ptr typ fields)
      | .fail b e => .fail b e
      | .panic p => .panic p := by
  rw [unpackStruct, hkey]
  simp only [hreg, hstruct, ne_eq, not_true_eq_false, if_false]

theorem unpackStruct_nonStruct {r : Reflector} {key : String} {object : Object}
    {templateKey : String} {typ : GoType}
    (hkey : mapGet object key = some (.string templateKey))
    (hreg : mapGet r templateKey = some typ) (hstruct : typ.Kind ≠ Kind.Struct) :
    unpackStruct r key object = .panic .internalNonStruct := by
  rw [unpackStruct, hkey]
  simp only [hreg, hstruct, ne_eq, not_false_eq_true, if_true]

theorem unpackField_interface {r : Reflector} {key : String} {object : Object}
    {templateKey : String} {f : StructField} (hkind : f.Kind = Kind.Interface) :
    unpackField r key object templateKey f =
      match mapGet object (fieldName f) with
      | none => .fail .zero (.missingField (fieldName f) key templateKey)
      | some (.object subMap) =>
        match unpackStruct r key subMap with
        | .ok subVal => setField f subVal
        | .fail _ e => .fail .zero e
        | .panic p => .panic p
      | some _ => .fail .zero (.notUnpackable (fieldName f) key templateKey) := by
  rw [unpackField]
  simp only [hkind]
  split <;> simp_all

theorem unpackField_array {r : Reflector} {key : String} {object : Object}
    {templateKey : String} {f : StructField} (hkind : f.Kind = Kind.Array) :
    unpackField r key object templateKey f = .fail .zero .arraysNotSupported := by
  rw [unpackField]
  simp only [hkind]

theorem unpackField_slice {r : Reflector} {key : String} {object : Object}
    {templateKey : String} {f : StructField} (hkind : f.Kind = Kind.Slice) :
    unpackField r key object templateKey f = .panic .slice := by
  rw [unpackField]
  simp only [hkind]

theorem unpackField_scalar {r : Reflector} {key : String} {object : Object}
    {templateKey : String} {f : StructField} (hi : f.Kind ≠ Kind.Interface)
    (ha : f.Kind ≠ Kind.Array) (hs : f.Kind ≠ Kind.Slice) :
    unpackField r key object templateKey f = .ok none := by
  rw [unpackField]
  split <;> simp_all

theorem unpackFields_nil {r : Reflector} {key : String} {object : Object}
    {templateKey : String} : unpackFields r key object templateKey [] = .ok [] := by
  rw [unpackFields]

theorem unpackFields_cons {r : Reflector} {key : String} {object : Object}
    {templateKey : String} {f : StructField} {rest : List StructField} :
    unpackFields r key object templateKey (f :: rest) =
      match unpackField r key object templateKey f with
      | .ok slot =>
        match unpackFields r key object templateKey rest with
        | .ok slots => .ok (slot :: slots)
        | .fail b e => .fail b e
        | .panic p => .panic p
      | .fail b e => .fail b e
      | .panic p => .panic p := by
  rw [unpackFields]

/-- A loop that completes has visited every field: one slot per field, each
the result of the switch for that field. -/
theorem unpackFields_ok {r : Reflector} {key : String} {object : Object}
    {templateKey : String} {fields : List StructField} {slots : List (Option Skeleton)}
    (h : unpackFields r key object templateKey fields = .ok slots) :
    slots.length = fields.length ∧
      ∀ (i : Nat) (f : StructField), fields[i]? = some f →
        ∃ slot, unpackField r key object templateKey f = .ok slot ∧ slots[i]? = some slot := by
  induction fields generalizing slots with
  | nil =>
    rw [unpackFields_nil] at h
    cases h
    simp
  | cons g rest ih =>
    rw [unpackFields_cons] at h
    split at h
    · rename_i slot hslot
      split at h
      · rename_i slots1 hrest
        cases h
        obtain ⟨hlen, hall⟩ := ih hrest
        refine ⟨by simp [hlen], ?_⟩
        intro i f hf
        cases i with
        | zero =>
          simp only [List.getElem?_cons_zero, Option.some.injEq] at hf
          subst hf
          exact ⟨slot, hslot, List.getElem?_cons_zero⟩
        | succ j =>
          simp only [List.getElem?_cons_succ] at hf
          obtain ⟨s, hs, hget⟩ := hall j f hf
          exact ⟨s, hs, by rw [List.getElem?_cons_succ]; exact hget⟩
      · cases h
      · cases h
    · cases h
    · cases h

/-- The loop stops with the error of the first field whose switch fails. -/
theorem unpackFields_stop_fail {r : Reflector} {key : String} {object : Object}
    {templateKey : String} {pre : List StructField} {f : StructField}
    {post : List StructField} {b : Blank} {e : Err}
    (hpre : ∀ g ∈ pre, ∃ slot, unpackField r key object templateKey g = .ok slot)
    (hf : unpackField r key object templateKey f = .fail b e) :
    unpackFields r key object templateKey (pre ++ f :: post) = .fail b e := by
  induction pre with
  | nil =>
    rw [List.nil_append, unpackFields_cons, hf]
  | cons g pre ih =>
    obtain ⟨slot, hslot⟩ := hpre g (List.mem_cons_self _ _)
    have ih1 := ih (fun g1 hg1 => hpre g1 (List.mem_cons_of_mem _ hg1))
    rw [List.cons_append, unpackFields_cons, hslot]
    simp only [ih1]

/-- The loop stops with the panic of the first field whose switch panics. -/
theorem unpackFields_stop_panic {r : Reflector} {key : String} {object : Object}
    {templateKey : String} {pre : List StructField} {f : StructField}
    {post : List StructField} {p : Panic}
    (hpre : ∀ g ∈ pre, ∃ slot, unpackField r key object templateKey g = .ok slot)
    (hf : unpackField r key object templateKey f = .panic p) :
    unpackFields r key object templateKey (pre ++ f :: post) = .panic p := by
  induction pre with
  | nil =>
    rw [List.nil_append, unpackFields_cons, hf]
  | cons g pre ih =>
    obtain ⟨slot, hslot⟩ := hpre g (List.mem_cons_self _ _)
    have ih1 := ih (fun g1 hg1 => hpre g1 (List.mem_cons_of_mem _ hg1))
    rw [List.cons_append, unpackFields_cons, hslot]
    simp only [ih1]

/-- A loop over fields that include an array field never completes. -/
theorem unpackFields_array {r : Reflector} {key : String} {object : Object}
    {templateKey : String} {fields : List StructField} {f : StructField}
    (hmem : f ∈ fields) (hkind : f.Kind = Kind.Array) (slots : List (Option Skeleton)) :
    unpackFields r key object templateKey fields ≠ .ok slots := by
  intro h
  obtain ⟨i, hi⟩ := List.getElem?_of_mem hmem
  obtain ⟨_, hall⟩ := unpackFields_ok h
  obtain ⟨slot, hslot, _⟩ := hall i f hi
  rw [unpackField_array hkind] at hslot
  cases hslot

/-- A loop over fields that include a slice field never completes. -/
theorem unpackFields_slice {r : Reflector} {key : String} {object : Object}
    {templateKey : String} {fields : List StructField} {f : StructField}
    (hmem : f ∈ fields) (hkind : f.Kind = Kind.Slice) (slots : List (Option Skeleton)) :
    unpackFields r key object templateKey fields ≠ .ok slots := by
  intro h
  obtain ⟨i, hi⟩ := List.getElem?_of_mem hmem
  obtain ⟨_, hall⟩ := unpackFields_ok h
  obtain ⟨slot, hslot, _⟩ := hall i f hi
  rw [unpackField_slice hkind] at hslot
  cases hslot

theorem genericLoop_nil {r : Reflector} {keyField : String} {out : List (String × Skeleton)} :
    genericLoop r keyField [] out = .ok out := by
  rw [genericLoop]

theorem genericLoop_cons {r : Reflector} {keyField : String} {key : String} {val : Value}
    {rest : Object} {out : List (String × Skeleton)} :
    genericLoop r keyField ((key, val) :: rest) out =
      if val.kind = Kind.Struct then
        match val with
        | .object subObj =>
          match unpackStruct r keyField subObj with
          | .ok field => genericLoop r keyField rest (mapSet out key field)
          | .fail _ e => .fail .zero e
          | .panic p => .panic p
        | _ => .fail .zero .badObjectMap
      else genericLoop r keyField rest out := by
  cases val <;> simp [genericLoop]

/-- The generic loop never stores an entry: a value of kind `Struct` is not a
`map[string]interface{}`, and only such a value would be decoded and stored. -/
theorem genericLoop_result (r : Reflector) (keyField : String) (entries : Object)
    (out : List (String × Skeleton)) :
    genericLoop r keyField entries out =
      if ∀ e ∈ entries, e.2.kind ≠ Kind.Struct then .ok out
      else .fail .zero .badObjectMap := by
  induction entries with
  | nil => simp [genericLoop_nil]
  | cons e rest ih =>
    obtain ⟨k, v⟩ := e
    rw [genericLoop_cons]
    by_cases hk : v.kind = Kind.Struct
    · have hno : ¬ ∀ e ∈ (k, v) :: rest, e.2.kind ≠ Kind.Struct := by
        intro hall
        exact hall (k, v) (List.mem_cons_self _ _) hk
      simp only [hk, if_true, hno, if_false]
      cases v <;> simp_all [Value.kind]
    · simp only [hk, if_false, ih]
      by_cases hrest : ∀ e ∈ rest, e.2.kind ≠ Kind.Struct
      · have : ∀ e ∈ (k, v) :: rest, e.2.kind ≠ Kind.Struct := by
          intro e he
          rcases List.mem_cons.mp he with rfl | he
          · exact hk
          · exact hrest e he
        rw [if_pos hrest, if_pos this]
      · have : ¬ ∀ e ∈ (k, v) :: rest, e.2.kind ≠ Kind.Struct := by
          intro hall
          exact hrest (fun e he => hall e (List.mem_cons_of_mem _ he))
        rw [if_neg hrest, if_neg this]

theorem unpackGenericStruct_result (r : Reflector) (keyField : String) (object : Object) :
    unpackGenericStruct r keyField object =
      if ∀ e ∈ object, e.2.kind ≠ Kind.Struct then .ok (.generic [])
      else .fail .zero .badObjectMap := by
  rw [unpackGenericStruct, genericLoop_result]
  by_cases h : ∀ e ∈ object, e.2.kind ≠ Kind.Struct
  · rw [if_pos h, if_pos h]
  · rw [if_neg h, if_neg h]

/-! ## The evaluator computes `unpackStruct` -/

theorem runField_sound {r : Reflector} {key : String}
    {callee : Object → Option (Outcome Skeleton)}
    (hc : ∀ obj o, callee obj = some o → unpackStruct r key obj = o)
    {object : Object} {templateKey : String} {f : StructField}
    {o : Outcome (Option Skeleton)}
    (h : runField callee key object templateKey f = some o) :
    unpackField r key object templateKey f = o := by
  unfold runField at h
  by_cases hi : f.Kind = Kind.Interface
  · rw [unpackField_interface hi]
    simp only [hi] at h
    cases hget : mapGet object (fieldName f) with
    | none =>
      rw [hget] at h
      simpa using h
    | some v =>
      rw [hget] at h
      cases v with
      | object subMap =>
        simp only at h ⊢
        cases hcal : callee subMap with
        | none => rw [hcal] at h; cases h
        | some oc =>
          rw [hcal] at h
          rw [hc subMap oc hcal]
          cases oc <;> simpa using h
      | _ => simpa using h
  · by_cases ha : f.Kind = Kind.Array
    · rw [unpackField_array ha]
      simp only [ha] at h
      simpa using h
    · by_cases hs : f.Kind = Kind.Slice
      · rw [unpackField_slice hs]
        simp only [hs] at h
        simpa using h
      · rw [unpackField_scalar hi ha hs]
        split at h
        · exact absurd (by assumption) hi
        · exact absurd (by assumption) ha
        · exact absurd (by assumption) hs
        · simpa using h

theorem runFields_sound {r : Reflector} {key : String}
    {callee : Object → Option (Outcome Skeleton)}
    (hc : ∀ obj o, callee obj = some o → unpackStruct r key obj = o)
    {object : Object} {templateKey : String} {fields : List StructField}
    {o : Outcome (List (Option Skeleton))}
    (h : runFields callee key object templateKey fields = some o) :
    unpackFields r key object templateKey fields = o := by
  induction fields generalizing o with
  | nil =>
    rw [unpackFields_nil]
    simpa [runFields] using h
  | cons f rest ih =>
    rw [unpackFields_cons]
    simp only [runFields] at h
    cases hf : runField callee key object templateKey f with
    | none => rw [hf] at h; cases h
    | some of1 =>
      rw [hf] at h
      rw [runField_sound hc hf]
      cases of1 with
      | ok slot =>
        simp only at h ⊢
        cases hrest : runFields callee key object templateKey rest with
        | none => rw [hrest] at h; cases h
        | some orest =>
          rw [hrest] at h
          rw [ih hrest]
          cases orest <;> simpa using h
      | fail b e => simpa using h
      | panic p => simpa using h

theorem runGenericLoop_sound {r : Reflector} {key : String}
    {callee : Object → Option (Outcome Skeleton)}
    (hc : ∀ obj o, callee obj = some o → unpackStruct r key obj = o)
    {entries : Object} {out : List (String × Skeleton)}
    {o : Outcome (List (String × Skeleton))}
    (h : runGenericLoop callee entries out = some o) :
    genericLoop r key entries out = o := by
  induction entries generalizing out o with
  | nil =>
    rw [genericLoop_nil]
    simpa [runGenericLoop] using h
  | cons e rest ih =>
    obtain ⟨k, v⟩ := e
    rw [genericLoop_cons]
    simp only [runGenericLoop] at h
    by_cases hk : v.kind = Kind.Struct
    · simp only [hk, if_true] at h ⊢
      cases v with
      | object subObj =>
        simp only at h ⊢
        cases hcal : callee subObj with
        | none => rw [hcal] at h; cases h
        | some oc =>
          rw [hcal] at h
          rw [hc subObj oc hcal]
          cases oc with
          | ok field => exact ih h
          | fail b e => simpa using h
          | panic p => simpa using h
      | _ => simpa using h
    · simp only [hk, if_false] at h ⊢
      exact ih h

/-- Every answer of the evaluator is the result of `unpackStruct`. -/
theorem unpackStruct_of_run {r : Reflector} {key : String} (depth : Nat) {object : Object}
    {o : Outcome Skeleton} (h : runStruct r key depth object = some o) :
    unpackStruct r key object = o := by
  induction depth generalizing object o with
  | zero => simp [runStruct] at h
  | succ n ih =>
    have hc : ∀ obj o, runStruct r key n obj = some o → unpackStruct r key obj = o :=
      fun obj o ho => ih ho
    simp only [runStruct] at h
    cases hkey : mapGet object key with
    | none =>
      rw [hkey] at h
      rw [unpackStruct_untagged hkey, unpackGenericStruct]
      simp only at h
      cases hloop : runGenericLoop (runStruct r key n) object [] with
      | none => rw [hloop] at h; cases h
      | some ol =>
        rw [hloop] at h
        rw [runGenericLoop_sound hc hloop]
        cases ol <;> simpa using h
    | some which =>
      rw [hkey] at h
      cases which with
      | string templateKey =>
        simp only at h
        cases hreg : mapGet r templateKey with
        | none =>
          rw [hreg] at h
          rw [unpackStruct_unregistered hkey hreg]
          simpa using h
        | some typ =>
          rw [hreg] at h
          by_cases hstruct : typ.Kind = Kind.Struct
          · rw [unpackStruct_tagged hkey hreg hstruct]
            simp only [hstruct, ne_eq, not_true_eq_false, if_false] at h
            cases hfs : runFields (runStruct r key n) key object templateKey typ.Fields with
            | none => rw [hfs] at h; cases h
            | some ofs =>
              rw [hfs] at h
              rw [runFields_sound hc hfs]
              cases ofs <;> simpa using h
          · rw [unpackStruct_nonStruct hkey hreg hstruct]
            simp only [hstruct, ne_eq, not_false_eq_true, if_true] at h
            simpa using h
      | _ =>
        rw [unpackStruct, hkey]
        simpa using h

/-! ## What a completed call has done -/

/-- A tagged object whose type is registered decodes to a skeleton only
through the field loop of that type. -/
theorem unpackStruct_ok_tagged {r : Reflector} {key : String} {object : Object}
    {templateKey : String} {typ : GoType} {s : Skeleton}
    (hkey : mapGet object key = some (.string templateKey))
    (hreg : mapGet r templateKey = some typ) (hok : unpackStruct r key object = .ok s) :
    typ.Kind = Kind.Struct ∧
      ∃ fields, s = .ptr typ fields ∧
        unpackFields r key object templateKey typ.Fields = .ok fields := by
  by_cases hstruct : typ.Kind = Kind.Struct
  · refine ⟨hstruct, ?_⟩
    rw [unpackStruct_tagged hkey hreg hstruct] at hok
    cases hfs : unpackFields r key object templateKey typ.Fields with
    | ok fields =>
      rw [hfs] at hok
      simp only [Outcome.ok.injEq] at hok
      exact ⟨fields, hok.symm, rfl⟩
    | fail b e => rw [hfs] at hok; cases hok
    | panic p => rw [hfs] at hok; cases hok
  · rw [unpackStruct_nonStruct hkey hreg hstruct] at hok
    cases hok

/-- A typed skeleton node comes from a tagged object whose discriminator is
registered with the type of the node. -/
theorem unpackStruct_ok_ptr {r : Reflector} {key : String} {object : Object}
    {typ : GoType} {fields : List (Option Skeleton)}
    (hok : unpackStruct r key object = .ok (.ptr typ fields)) :
    ∃ templateKey, mapGet object key = some (.string templateKey) ∧
      mapGet r templateKey = some typ ∧
      unpackFields r key object templateKey typ.Fields = .ok fields := by
  cases hkey : mapGet object key with
  | none =>
    rw [unpackStruct_untagged hkey, unpackGenericStruct_result] at hok
    split at hok <;> cases hok
  | some which =>
    cases which with
    | string templateKey =>
      cases hreg : mapGet r templateKey with
      | none =>
        rw [unpackStruct_unregistered hkey hreg] at hok
        cases hok
      | some typ0 =>
        obtain ⟨_, fields0, hs, hfs⟩ := unpackStruct_ok_tagged hkey hreg hok
        simp only [Skeleton.ptr.injEq] at hs
        obtain ⟨rfl, rfl⟩ := hs
        exact ⟨templateKey, rfl, hreg, hfs⟩
    | _ =>
      rw [unpackStruct, hkey] at hok
      cases hok

/-- An interface field whose switch completes holds the skeleton of the
object stored under its serialization name. -/
theorem unpackField_interface_ok {r : Reflector} {key : String} {object : Object}
    {templateKey : String} {f : StructField} {slot : Option Skeleton}
    (hkind : f.Kind = Kind.Interface)
    (hok : unpackField r key object templateKey f = .ok slot) :
    ∃ subMap subVal, mapGet object (fieldName f) = some (.object subMap) ∧
      unpackStruct r key subMap = .ok subVal ∧ slot = some subVal := by
  rw [unpackField_interface hkind] at hok
  cases hget : mapGet object (fieldName f) with
  | none => rw [hget] at hok; cases hok
  | some v =>
    rw [hget] at hok
    cases v with
    | object subMap =>
      simp only at hok
      cases hsub : unpackStruct r key subMap with
      | ok subVal =>
        rw [hsub] at hok
        refine ⟨subMap, subVal, rfl, hsub, ?_⟩
        simp only [setField] at hok
        split at hok
        · cases hok
        · split at hok
          · simp only [Outcome.ok.injEq] at hok
            exact hok.symm
          · cases hok
      | fail b e => rw [hsub] at hok; cases hok
      | panic p => rw [hsub] at hok; cases hok
    | _ => cases hok

/-- A field that is not an interface and whose switch completes is left at
its zero value. -/
theorem unpackField_other_ok {r : Reflector} {key : String} {object : Object}
    {templateKey : String} {f : StructField} {slot : Option Skeleton}
    (hkind : f.Kind ≠ Kind.Interface)
    (hok : unpackField r key object templateKey f = .ok slot) : slot = none := by
  by_cases ha : f.Kind = Kind.Array
  · rw [unpackField_array ha] at hok
    cases hok
  · by_cases hs : f.Kind = Kind.Slice
    · rw [unpackField_slice hs] at hok
      cases hok
    · rw [unpackField_scalar hkind ha hs] at hok
      simp only [Outcome.ok.injEq] at hok
      exact hok.symm

/-! ## Claims -/

/-- C1 (discriminator fidelity).  When the discriminator of an object is a
string registered with the type `typ` and `unpackStruct` returns a skeleton,
that skeleton is a node of type `typ` with one slot per field, and the slot of
every interface field holds exactly the skeleton that `unpackStruct` returns
for the object stored under the serialization name of that field. -/
theorem unpackStruct_discriminator_fidelity (r : Reflector) (key : String) (object : Object)
    (templateKey : String) (typ : GoType) (s : Skeleton)
    (hkey : mapGet object key = some (.string templateKey))
    (hreg : mapGet r templateKey = some typ)
    (hok : unpackStruct r key object = .ok s) :
    ∃ fields, s = .ptr typ fields ∧ fields.length = typ.Fields.length ∧
      ∀ (i : Nat) (f : StructField), typ.Fields[i]? = some f → f.Kind = Kind.Interface →
        ∃ subMap subVal, mapGet object (fieldName f) = some (.object subMap) ∧
          unpackStruct r key subMap = .ok subVal ∧ fields[i]? = some (some subVal) := by
  obtain ⟨_, fields, hs, hfs⟩ := unpackStruct_ok_tagged hkey hreg hok
  obtain ⟨hlen, hall⟩ := unpackFields_ok hfs
  refine ⟨fields, hs, hlen, ?_⟩
  intro i f hf hkind
  obtain ⟨slot, hslot, hget⟩ := hall i f hf
  obtain ⟨subMap, subVal, hsub, hval, rfl⟩ := unpackField_interface_ok hkind hslot
  exact ⟨subMap, subVal, hsub, hval, hget⟩

/-- Witness of C1 on the document `test2` of the tests. -/
theorem unpackStruct_discriminator_fidelity_witness :
    ∃ fields, skeleton2 = .ptr BinaryExpr fields ∧ fields.length = BinaryExpr.Fields.length ∧
      ∀ (i : Nat) (f : StructField), BinaryExpr.Fields[i]? = some f →
        f.Kind = Kind.Interface →
        ∃ subMap subVal, mapGet test2 (fieldName f) = some (.object subMap) ∧
          unpackStruct testReflector "op" subMap = .ok subVal ∧
          fields[i]? = some (some subVal) :=
  unpackStruct_discriminator_fidelity testReflector "op" test2 "BinaryExpr" BinaryExpr
    skeleton2 rfl rfl (unpackStruct_of_run 4 rfl)

/-- C2.  In a typed skeleton node that `unpackStruct` returns, every field
that is not an interface field is at the zero value of its type, whatever the
object stores under the name of that field. -/
theorem unpackStruct_scalar_fields_zero (r : Reflector) (key : String) (object : Object)
    (typ : GoType) (fields : List (Option Skeleton))
    (hok : unpackStruct r key object = .ok (.ptr typ fields)) :
    ∀ (i : Nat) (f : StructField), typ.Fields[i]? = some f → f.Kind ≠ Kind.Interface →
      fields[i]? = some none := by
  obtain ⟨templateKey, _, _, hfs⟩ := unpackStruct_ok_ptr hok
  obtain ⟨_, hall⟩ := unpackFields_ok hfs
  intro i f hf hkind
  obtain ⟨slot, hslot, hget⟩ := hall i f hf
  rw [unpackField_other_ok hkind hslot] at hget
  exact hget

/-- Witness of C2 on the document `test1` of the tests: the object stores
`"BinaryExpr"` under `op`, and the slot of the field `Op` (index 0) is empty. -/
theorem unpackStruct_scalar_fields_zero_witness :
    [none, some terminalSkeleton, some terminalSkeleton][0]? = some none :=
  unpackStruct_scalar_fields_zero testReflector "op" test1 BinaryExpr
    [none, some terminalSkeleton, some terminalSkeleton] (unpackStruct_of_run 3 rfl)
    0 { Name := "Op", Tag := [("json", "op")], Kind := Kind.String } rfl (by decide)

/-- C3 (deterministic failure).  When the discriminator of an object is a
string with no entry in the registry, `unpackStruct` returns `nil` and the
error that names the key and that string: no skeleton, whatever else the
object holds. -/
theorem unpackStruct_unknown_discriminator (r : Reflector) (key : String) (object : Object)
    (templateKey : String) (hkey : mapGet object key = some (.string templateKey))
    (hreg : mapGet r templateKey = none) :
    unpackStruct r key object = .fail .nil (.noTemplate key templateKey) :=
  unpackStruct_unregistered hkey hreg

/-- Witness of C3: a document tagged `Mystery` with the registry of the tests. -/
theorem unpackStruct_unknown_discriminator_witness :
    unpackStruct testReflector "op" mysteryDoc = .fail .nil (.noTemplate "op" "Mystery") :=
  unpackStruct_unknown_discriminator testReflector "op" mysteryDoc "Mystery" rfl rfl

/-- C4.  In an object tagged with a registered struct type, when an interface
field of the type has no entry under its serialization name and the switch
completes for every field declared before it, `unpackStruct` returns no
skeleton but the missing-field error, which names that serialization name, the
key and the discriminator value. -/
theorem unpackStruct_missing_field (r : Reflector) (key : String) (object : Object)
    (templateKey : String) (typ : GoType) (pre : List StructField) (f : StructField)
    (post : List StructField)
    (hkey : mapGet object key = some (.string templateKey))
    (hreg : mapGet r templateKey = some typ) (hstruct : typ.Kind = Kind.Struct)
    (hfields : typ.Fields = pre ++ f :: post) (hkind : f.Kind = Kind.Interface)
    (hmissing : mapGet object (fieldName f) = none)
    (hpre : ∀ g ∈ pre, ∃ slot, unpackField r key object templateKey g = .ok slot) :
    unpackStruct r key object =
      .fail .zero (.missingField (fieldName f) key templateKey) := by
  have hf : unpackField r key object templateKey f =
      .fail .zero (.missingField (fieldName f) key templateKey) := by
    rw [unpackField_interface hkind, hmissing]
  rw [unpackStruct_tagged hkey hreg hstruct, hfields, unpackFields_stop_fail hpre hf]

/-- Witness of C4: `{"op": "UnaryExpr"}` has no `operand`. -/
theorem unpackStruct_missing_field_witness :
    unpackStruct testReflector "op" missingOperandDoc =
      .fail .zero (.missingField "operand" "op" "UnaryExpr") :=
  unpackStruct_missing_field testReflector "op" missingOperandDoc "UnaryExpr" UnaryExpr
    [{ Name := "Op", Tag := [("json", "op")], Kind := Kind.String }]
    { Name := "Operand", Tag := [("json", "operand")], Kind := Kind.Interface,
      Methods := exprMethods }
    [] rfl rfl rfl rfl rfl rfl
    (fun g hg => by
      rw [List.mem_singleton] at hg
      subst hg
      exact ⟨none, unpackField_scalar (by decide) (by decide) (by decide)⟩)

/-- C5.  In an object tagged with a registered struct type, when the entry
under the serialization name of an interface field is present but is not an
object and the switch completes for every field declared before it,
`unpackStruct` returns no skeleton but the not-an-object error, which names
that serialization name, the key and the discriminator value. -/
theorem unpackStruct_not_an_object (r : Reflector) (key : String) (object : Object)
    (templateKey : String) (typ : GoType) (pre : List StructField) (f : StructField)
    (post : List StructField) (v : Value)
    (hkey : mapGet object key = some (.string templateKey))
    (hreg : mapGet r templateKey = some typ) (hstruct : typ.Kind = Kind.Struct)
    (hfields : typ.Fields = pre ++ f :: post) (hkind : f.Kind = Kind.Interface)
    (hentry : mapGet object (fieldName f) = some v) (hshape : ∀ m, v ≠ .object m)
    (hpre : ∀ g ∈ pre, ∃ slot, unpackField r key object templateKey g = .ok slot) :
    unpackStruct r key object =
      .fail .zero (.notUnpackable (fieldName f) key templateKey) := by
  have hf : unpackField r key object templateKey f =
      .fail .zero (.notUnpackable (fieldName f) key templateKey) := by
    rw [unpackField_interface hkind, hentry]
    cases v with
    | object m => exact absurd rfl (hshape m)
    | _ => rfl
  rw [unpackStruct_tagged hkey hreg hstruct, hfields, unpackFields_stop_fail hpre hf]

/-- Witness of C5: in `{"op": "UnaryExpr", "operand": "foo"}` the operand is a
string. -/
theorem unpackStruct_not_an_object_witness :
    unpackStruct testReflector "op" stringOperandDoc =
      .fail .zero (.notUnpackable "operand" "op" "UnaryExpr") :=
  unpackStruct_not_an_object testReflector "op" stringOperandDoc "UnaryExpr" UnaryExpr
    [{ Name := "Op", Tag := [("json", "op")], Kind := Kind.String }]
    { Name := "Operand", Tag := [("json", "operand")], Kind := Kind.Interface,
      Methods := exprMethods }
    [] (.string "foo") rfl rfl rfl rfl rfl rfl (fun m h => by cases h)
    (fun g hg => by
      rw [List.mem_singleton] at hg
      subst hg
      exact ⟨none, unpackField_scalar (by decide) (by decide) (by decide)⟩)

/-- C6 (fallback correctness), evaluated on the operand of `test4`.  The object
`{"expr": {"op": "Terminal", "body": "nested"}}` lacks the key `op`, its entry
`expr` is an object tagged with the registered type `Terminal`, and that nested
object decodes to a `Terminal` skeleton; yet the walk returns an empty map, with
no entry `expr`, because the value of `expr` has kind `Map` and the walk
decodes values of kind `Struct`.  The whole of `test4` then panics, when the
empty map is `Set` into the field `Operand` of interface type `Expr`. -/
theorem fallback_loses_nested_object :
    mapGet test4Operand "op" = none ∧
      mapGet test4Operand "expr" = some (.object (terminalDoc "nested")) ∧
      (Value.object (terminalDoc "nested")).kind = Kind.Map ∧
      unpackStruct testReflector "op" (terminalDoc "nested") = .ok terminalSkeleton ∧
      unpackStruct testReflector "op" test4Operand = .ok (.generic []) ∧
      unpackStruct testReflector "op" test4 = .panic (.setNotAssignable "Operand") :=
  ⟨rfl, rfl, rfl, unpackStruct_of_run 1 rfl, unpackStruct_of_run 1 rfl,
    unpackStruct_of_run 2 rfl⟩

/-- C7 as stated fails on `{"name": "x", "count": 3}`: the object lacks the key
`op`, and the map that the fallback walk returns is empty, so `name` is a key
of the object and not of the map. -/
theorem fallback_drops_scalar_entries :
    mapGet scalarsDoc "op" = none ∧
      unpackStruct testReflector "op" scalarsDoc = .ok (.generic []) ∧
      "name" ∈ mapKeys scalarsDoc ∧
      "name" ∉ mapKeys ([] : List (String × Skeleton)) :=
  ⟨rfl, unpackStruct_of_run 1 rfl, by decide, by decide⟩

/-- C7, amended.  For an object that lacks the discriminator key and for which
the fallback walk returns a map, every key of the map is a key of the object,
and no key whose value is not an object is a key of the map: the entries that
are strings, numbers, booleans, null or arrays are left out of the map, not
copied into it. -/
theorem fallback_omits_non_objects (r : Reflector) (key : String) (object : Object)
    (s : Skeleton) (hkey : mapGet object key = none)
    (hok : unpackStruct r key object = .ok s) :
    ∃ out, s = .generic out ∧ (∀ k ∈ mapKeys out, k ∈ mapKeys object) ∧
      ∀ (k : String) (v : Value), mapGet object k = some v → (∀ m, v ≠ .object m) →
        mapGet out k = none := by
  rw [unpackStruct_untagged hkey, unpackGenericStruct_result] at hok
  split at hok
  · simp only [Outcome.ok.injEq] at hok
    refine ⟨[], hok.symm, ?_, ?_⟩
    · intro k hk
      simp [mapKeys] at hk
    · intro k v _ _
      rfl
  · cases hok

/-- Witness of C7, amended, on `{"name": "x", "count": 3}`. -/
theorem fallback_omits_non_objects_witness :
    ∃ out, Skeleton.generic [] = .generic out ∧
      (∀ k ∈ mapKeys out, k ∈ mapKeys scalarsDoc) ∧
      ∀ (k : String) (v : Value), mapGet scalarsDoc k = some v → (∀ m, v ≠ .object m) →
        mapGet out k = none :=
  fallback_omits_non_objects testReflector "op" scalarsDoc (.generic []) rfl
    (unpackStruct_of_run 1 rfl)

/-- C8 as stated fails on `test3`: the type `ListExpr` is registered, the entry
`exprs` is an array of two objects that each decode to a skeleton, and the call
panics with `slice` instead of returning a skeleton. -/
theorem slice_field_panics :
    mapGet testReflector "ListExpr" = some ListExpr ∧
      unpackStruct testReflector "op"
          [("op", .string "UnaryExpr"), ("operand", .object (terminalDoc "foo"))] =
        .ok (.ptr UnaryExpr [none, some terminalSkeleton]) ∧
      unpackStruct testReflector "op"
          [("op", .string "BinaryExpr"), ("lhs", .object (terminalDoc "bar")),
           ("rhs", .object (terminalDoc "baz"))] =
        .ok (.ptr BinaryExpr [none, some terminalSkeleton, some terminalSkeleton]) ∧
      unpackStruct testReflector "op" test3 = .panic .slice :=
  ⟨rfl, unpackStruct_of_run 2 rfl, unpackStruct_of_run 2 rfl, unpackStruct_of_run 1 rfl⟩

/-- C8, amended.  For an object tagged with a registered type that has a slice
field, `unpackStruct` returns no skeleton, whatever the object stores under the
name of that field; when the type is a struct and the switch completes for
every field declared before the slice field, the call panics with `slice`. -/
theorem unpackStruct_slice_field (r : Reflector) (key : String) (object : Object)
    (templateKey : String) (typ : GoType) (pre : List StructField) (f : StructField)
    (post : List StructField)
    (hkey : mapGet object key = some (.string templateKey))
    (hreg : mapGet r templateKey = some typ)
    (hfields : typ.Fields = pre ++ f :: post) (hkind : f.Kind = Kind.Slice) :
    (∀ s, unpackStruct r key object ≠ .ok s) ∧
      (typ.Kind = Kind.Struct →
        (∀ g ∈ pre, ∃ slot, unpackField r key object templateKey g = .ok slot) →
        unpackStruct r key object = .panic .slice) := by
  constructor
  · intro s hok
    obtain ⟨_, fields, _, hfs⟩ := unpackStruct_ok_tagged hkey hreg hok
    have hmem : f ∈ typ.Fields := by
      rw [hfields]
      exact List.mem_append_right _ (List.mem_cons_self _ _)
    exact unpackFields_slice hmem hkind fields hfs
  · intro hstruct hpre
    rw [unpackStruct_tagged hkey hreg hstruct, hfields,
      unpackFields_stop_panic hpre (unpackField_slice hkind)]

/-- Witness of C8, amended, on `test3`. -/
theorem unpackStruct_slice_field_witness :
    (∀ s, unpackStruct testReflector "op" test3 ≠ .ok s) ∧
      unpackStruct testReflector "op" test3 = .panic .slice :=
  have h := unpackStruct_slice_field testReflector "op" test3 "ListExpr" ListExpr
    [{ Name := "Op", Tag := [("json", "op")], Kind := Kind.String }]
    { Name := "Exprs", Tag := [("json", "exprs")], Kind := Kind.Slice }
    [] rfl rfl rfl rfl
  ⟨h.1, h.2 rfl (fun g hg => by
      rw [List.mem_singleton] at hg
      subst hg
      exact ⟨none, unpackField_scalar (by decide) (by decide) (by decide)⟩)⟩

/-- C9.  For an object tagged with a registered type that has a fixed-size
array field, `unpackStruct` never returns a skeleton; when the type is a struct
and every field declared before the array field is a scalar (its kind is not
interface, array or slice) or an interface field whose switch completes, the
result is the arrays-not-supported error. -/
theorem unpackStruct_array_field (r : Reflector) (key : String) (object : Object)
    (templateKey : String) (typ : GoType) (pre : List StructField) (f : StructField)
    (post : List StructField)
    (hkey : mapGet object key = some (.string templateKey))
    (hreg : mapGet r templateKey = some typ)
    (hfields : typ.Fields = pre ++ f :: post) (hkind : f.Kind = Kind.Array) :
    (∀ s, unpackStruct r key object ≠ .ok s) ∧
      (typ.Kind = Kind.Struct →
        (∀ g ∈ pre,
          (g.Kind ≠ Kind.Interface ∧ g.Kind ≠ Kind.Array ∧ g.Kind ≠ Kind.Slice) ∨
          (g.Kind = Kind.Interface ∧
            ∃ slot, unpackField r key object templateKey g = .ok slot)) →
        unpackStruct r key object = .fail .zero .arraysNotSupported) := by
  constructor
  · intro s hok
    obtain ⟨_, fields, _, hfs⟩ := unpackStruct_ok_tagged hkey hreg hok
    have hmem : f ∈ typ.Fields := by
      rw [hfields]
      exact List.mem_append_right _ (List.mem_cons_self _ _)
    exact unpackFields_array hmem hkind fields hfs
  · intro hstruct hpre
    have hpre1 : ∀ g ∈ pre, ∃ slot, unpackField r key object templateKey g = .ok slot := by
      intro g hg
      rcases hpre g hg with ⟨hi, ha, hs⟩ | ⟨_, hslot⟩
      · exact ⟨none, unpackField_scalar hi ha hs⟩
      · exact hslot
    rw [unpackStruct_tagged hkey hreg hstruct, hfields,
      unpackFields_stop_fail hpre1 (unpackField_array hkind)]

/-- Witness of C9: the type `Matrix`, whose array field comes after a string
field and an interface field that decodes to a `Terminal`. -/
theorem unpackStruct_array_field_witness :
    (∀ s, unpackStruct matrixReflector "op" matrixDoc ≠ .ok s) ∧
      unpackStruct matrixReflector "op" matrixDoc = .fail .zero .arraysNotSupported :=
  have h := unpackStruct_array_field matrixReflector "op" matrixDoc "Matrix" Matrix
    [{ Name := "Op", Tag := [("json", "op")], Kind := Kind.String },
     { Name := "Left", Tag := [("json", "left")], Kind := Kind.Interface,
       Methods := exprMethods }]
    { Name := "Cells", Tag := [("json", "cells")], Kind := Kind.Array }
    [] rfl rfl rfl rfl
  ⟨h.1, h.2 rfl (fun g hg => by
      rw [List.mem_cons, List.mem_singleton] at hg
      rcases hg with rfl | rfl
      · exact Or.inl ⟨by decide, by decide, by decide⟩
      · exact Or.inr ⟨rfl, some terminalSkeleton, by
          rw [unpackField_interface rfl]
          have hsub : unpackStruct matrixReflector "op" (terminalDoc "x") =
              .ok terminalSkeleton := unpackStruct_of_run 1 rfl
          have hget : mapGet matrixDoc
              (fieldName { Name := "Left", Tag := [("json", "left")],
                           Kind := Kind.Interface, Methods := exprMethods }) =
              some (.object (terminalDoc "x")) := rfl
          rw [hget]
          simp only [hsub]
          rfl⟩)⟩

/-- A key has a binding exactly when it is among the keys of the map. -/
theorem mapGet_eq_none_iff {α : Type} (m : List (String × α)) (key : String) :
    mapGet m key = none ↔ key ∉ mapKeys m := by
  induction m with
  | nil => simp [mapGet, mapKeys]
  | cons e rest ih =>
    obtain ⟨k, v⟩ := e
    simp only [mapGet, mapKeys, List.map_cons, List.mem_cons, not_or]
    by_cases hk : k = key
    · simp [hk]
    · simp only [hk, if_false]
      rw [ih]
      simp only [mapKeys]
      constructor
      · intro h
        exact ⟨fun h1 => hk h1.symm, h⟩
      · intro h
        exact h.2

/-- C10 as stated fails on the nil map (`var r Reflector`): `Terminal{}` is a
struct and `Terminal` is not a key of the map, and `Add` panics all the same,
at the assignment `r[name] = typ`. -/
theorem Add_nil_map_panics :
    templateKind (some Terminal) = Kind.Struct ∧
      Terminal.Name ∉ mapKeys Receiver.nilMap.entries ∧
      (Add .nilMap (some Terminal)).panicked = some .nilMapAssignment :=
  ⟨rfl, by decide, by decide⟩

/-- C10, amended.  `Add` panics exactly when the template is not a struct (its
kind is not `Struct`: a nil value, a primitive, a pointer, also a pointer to a
struct, a map), or the name of its type is already a key of the registry, or
the registry is the nil map; and when it panics the registry is what it was
before the call. -/
theorem Add_panics_iff (r : Receiver) (template : Option GoType) :
    ((Add r template).panicked ≠ none ↔
        (templateKind template ≠ Kind.Struct ∨
          (∃ typ, template = some typ ∧ typ.Name ∈ mapKeys r.entries) ∨
          r = .nilMap)) ∧
      ((Add r template).panicked ≠ none → (Add r template).registry = r) := by
  cases template with
  | none =>
    simp [Add, templateKind]
  | some typ =>
    by_cases hstruct : typ.Kind = Kind.Struct
    · cases hget : mapGet r.entries typ.Name with
      | none =>
        have hnot : typ.Name ∉ mapKeys r.entries :=
          (mapGet_eq_none_iff r.entries typ.Name).mp hget
        cases r with
        | nilMap => simp [Add, templateKind, hstruct, hget]
        | made entries =>
          simp only [Receiver.entries] at hget hnot
          simp [Add, templateKind, hstruct, hget, hnot, Receiver.entries]
      | some t0 =>
        have hin : typ.Name ∈ mapKeys r.entries := by
          by_contra hnot
          rw [(mapGet_eq_none_iff r.entries typ.Name).mpr hnot] at hget
          cases hget
        simp [Add, templateKind, hstruct, hget, hin]
    · simp [Add, templateKind, hstruct]

/-- Witness of C10, amended, on the registry of the tests: `Add` of
`&Terminal{}`, a pointer to a struct, panics and leaves the registry unchanged,
`Add` of `Terminal{}`, whose name is registered, panics too, and so does `Add`
of `Terminal{}` on the nil map, which stays nil. -/
theorem Add_panics_iff_witness :
    (Add (.made testReflector) (some terminalPointer)).panicked = some .nonStructTemplate ∧
      (Add (.made testReflector) (some terminalPointer)).registry = .made testReflector ∧
      (Add (.made testReflector) (some Terminal)).panicked ≠ none ∧
      (Add .nilMap (some Terminal)).panicked ≠ none ∧
      (Add .nilMap (some Terminal)).registry = .nilMap :=
  ⟨by decide,
    (Add_panics_iff (.made testReflector) (some terminalPointer)).2 (by decide),
    (Add_panics_iff (.made testReflector) (some Terminal)).1.mpr
      (Or.inr (Or.inl ⟨Terminal, rfl, by decide⟩)),
    (Add_panics_iff .nilMap (some Terminal)).1.mpr (Or.inr (Or.inr rfl)),
    (Add_panics_iff .nilMap (some Terminal)).2 (by decide)⟩

/-! ## The registry as a map -/

theorem mapGet_mapSet_self {α : Type} (m : List (String × α)) (key : String) (v : α) :
    mapGet (mapSet m key v) key = some v := by
  simp [mapSet, mapGet]

theorem mapGet_mapSet_other {α : Type} (m : List (String × α)) (key name : String) (v : α)
    (hne : name ≠ key) : mapGet (mapSet m key v) name = mapGet m name := by
  have hfilter : mapGet (m.filter (fun e => e.1 ≠ key)) name = mapGet m name := by
    induction m with
    | nil => rfl
    | cons e rest ih =>
      obtain ⟨k, w⟩ := e
      by_cases hk : k = key
      · have hkn : ¬ k = name := fun h => hne (h.symm.trans hk)
        rw [List.filter_cons_of_neg (by simpa using hk)]
        simp only [mapGet, if_neg hkn]
        exact ih
      · rw [List.filter_cons_of_pos (by simpa using hk)]
        simp only [mapGet]
        by_cases hn : k = name
        · simp only [if_pos hn]
        · simp only [if_neg hn]
          exact ih
  have hkn : ¬ key = name := fun h => hne h.symm
  simp only [mapSet, mapGet, hkn, if_false]
  exact hfilter

/-- A successful `Add` binds the name of the type and nothing else. -/
theorem Add_struct_new {entries : Reflector} {typ : GoType}
    (hstruct : typ.Kind = Kind.Struct) (hnew : mapGet entries typ.Name = none) :
    Add (.made entries) (some typ) = ⟨.made (mapSet entries typ.Name typ), none⟩ := by
  simp [Add, hstruct, hnew, Receiver.entries]

/-- After `Add` the names that were absent and are not the name of the
template are still absent. -/
theorem Add_absent (r : Receiver) (t : Option GoType) (name : String)
    (habsent : mapGet r.entries name = none)
    (hname : ∀ typ, t = some typ → typ.Name ≠ name) :
    mapGet (Add r t).registry.entries name = none := by
  cases t with
  | none => simpa [Add] using habsent
  | some typ =>
    by_cases hstruct : typ.Kind = Kind.Struct
    · cases hget : mapGet r.entries typ.Name with
      | none =>
        cases r with
        | nilMap => simp [Add, hstruct, hget, Receiver.entries, mapGet]
        | made entries =>
          simp only [Receiver.entries] at hget habsent
          rw [Add_struct_new hstruct hget]
          simp only [Receiver.entries]
          rw [mapGet_mapSet_other entries typ.Name name typ
            (fun h => hname typ rfl h.symm)]
          exact habsent
      | some t0 => simpa [Add, hstruct, hget] using habsent
    · simpa [Add, hstruct] using habsent

theorem Init_absent (r : Receiver) (ts : List (Option GoType)) (name : String)
    (habsent : mapGet r.entries name = none)
    (hname : ∀ t ∈ ts, ∀ typ, t = some typ → typ.Name ≠ name) :
    mapGet (Init r ts).registry.entries name = none := by
  induction ts generalizing r with
  | nil => simpa [Init] using habsent
  | cons t rest ih =>
    have h1 := Add_absent r t name habsent (hname t (List.mem_cons_self _ _))
    simp only [Init]
    cases hadd : Add r t with
    | mk r1 p =>
      rw [hadd] at h1
      cases p with
      | none =>
        exact ih r1 h1 (fun t1 ht1 => hname t1 (List.mem_cons_of_mem _ ht1))
      | some p1 => exact h1

theorem Init_eq_foldl (r : Receiver) (ts : List (Option GoType)) :
    Init r ts =
      ts.foldl (fun st t => match st.panicked with
        | none => Add st.registry t
        | some _ => st) ⟨r, none⟩ := by
  have stuck : ∀ (ts : List (Option GoType)) (r1 : Receiver) (p : Panic),
      ts.foldl (fun st t => match st.panicked with
        | none => Add st.registry t
        | some _ => st) (⟨r1, some p⟩ : Registration) = ⟨r1, some p⟩ := by
    intro ts
    induction ts with
    | nil => intro r1 p; rfl
    | cons t rest ih => intro r1 p; simp only [List.foldl_cons]; exact ih r1 p
  induction ts generalizing r with
  | nil => rfl
  | cons t rest ih =>
    simp only [Init, List.foldl_cons]
    cases hadd : Add r t with
    | mk r1 p =>
      cases p with
      | none => simp only; exact ih r1
      | some p1 => simp only; exact (stuck rest r1 p1).symm

/-- C11 as stated fails on the nil map (`var r Reflector`): `Terminal{}` is a
struct whose name is not registered, and `Add` panics at the assignment
`r[name] = typ`; the lookup of `Terminal` afterwards finds nothing. -/
theorem Add_nil_map_binds_nothing :
    Terminal.Kind = Kind.Struct ∧
      mapGet Receiver.nilMap.entries Terminal.Name = none ∧
      (Add .nilMap (some Terminal)).panicked ≠ none ∧
      mapGet (Add .nilMap (some Terminal)).registry.entries Terminal.Name = none :=
  ⟨rfl, rfl, by decide, rfl⟩

/-- C11, amended.  On a registry that is not the nil map, `Add` of a struct
template whose type name is not yet registered returns, the lookup of that
name then gives the type of the template and the lookup of every other name
gives what it gave before; a name is absent from the empty registry of `New`
and stays absent through `Init`, on any registry, as long as no template has
it; and `Init` is `Add` applied to the templates from left to right (nothing
more is added after a panic, which ends the call). -/
theorem Add_then_lookup (entries : Reflector) (typ : GoType)
    (hstruct : typ.Kind = Kind.Struct) (hnew : mapGet entries typ.Name = none) :
    (Add (.made entries) (some typ)).panicked = none ∧
      mapGet (Add (.made entries) (some typ)).registry.entries typ.Name = some typ ∧
      (∀ name, name ≠ typ.Name →
        mapGet (Add (.made entries) (some typ)).registry.entries name =
          mapGet entries name) ∧
      (∀ name, mapGet New name = none) ∧
      (∀ (r : Receiver) (ts : List (Option GoType)) (name : String),
        mapGet r.entries name = none →
        (∀ t ∈ ts, ∀ typ1, t = some typ1 → typ1.Name ≠ name) →
        mapGet (Init r ts).registry.entries name = none) ∧
      (∀ (r : Receiver) (ts : List (Option GoType)), Init r ts =
        ts.foldl (fun st t => match st.panicked with
          | none => Add st.registry t
          | some _ => st) ⟨r, none⟩) := by
  rw [Add_struct_new hstruct hnew]
  refine ⟨rfl, mapGet_mapSet_self entries typ.Name typ, ?_, fun _ => rfl, ?_, ?_⟩
  · intro name hne
    exact mapGet_mapSet_other entries typ.Name name typ hne
  · intro r ts name habsent hname
    exact Init_absent r ts name habsent hname
  · intro r ts
    exact Init_eq_foldl r ts

/-- Witness of C11, amended: `Add(Matrix{})` on the registry of the tests binds
`Matrix`, keeps `Terminal`, and `Mystery` is still absent. -/
theorem Add_then_lookup_witness :
    (Add (.made testReflector) (some Matrix)).panicked = none ∧
      mapGet matrixReflector "Matrix" = some Matrix ∧
      mapGet matrixReflector "Terminal" = mapGet testReflector "Terminal" ∧
      mapGet (Init (.made testReflector) [some Matrix]).registry.entries "Mystery" = none :=
  have h := Add_then_lookup testReflector Matrix rfl rfl
  ⟨h.1, h.2.1, h.2.2.1 "Terminal" (by decide),
    h.2.2.2.2.1 (.made testReflector) [some Matrix] "Mystery" rfl
      (fun t ht typ1 htyp => by
        rw [List.mem_singleton] at ht
        subst ht
        cases htyp
        decide)⟩

/-! ## `fieldName` -/

/-- Cutting at a one-character separator: the text before the first occurrence
of the character, when there is one. -/
theorem cutAt_single (c : Char) (l : List Char) :
    cutAt [c] l =
      if c ∈ l then some (l.takeWhile (fun d => d ≠ c), (l.dropWhile (fun d => d ≠ c)).tail)
      else none := by
  induction l with
  | nil => simp [cutAt]
  | cons d rest ih =>
    by_cases hd : c = d
    · subst hd
      simp [cutAt, List.isPrefixOf]
    · have hd1 : ¬ d = c := fun h => hd h.symm
      simp only [cutAt, List.isPrefixOf, beq_iff_eq, hd, Bool.false_and, Bool.false_eq_true,
        if_false, ih, List.mem_cons, false_or]
      by_cases hmem : c ∈ rest
      · simp [hmem, List.takeWhile, List.dropWhile, hd1, hd]
      · simp [hmem, hd]

/-- The first part of `strings.SplitN(s, ",", 2)` is the text before the first
comma. -/
theorem splitN2_head (s : String) :
    ∃ tail, splitN2 s tagSep = String.mk (s.toList.takeWhile (fun d => d ≠ ',')) :: tail := by
  have hsep : tagSep.toList = [','] := rfl
  simp only [splitN2, hsep, cutAt_single]
  by_cases hmem : ',' ∈ s.toList
  · simp only [hmem, if_true]
    exact ⟨_, rfl⟩
  · simp only [hmem, if_false]
    refine ⟨[], ?_⟩
    have hall : s.toList.takeWhile (fun d => d ≠ ',') = s.toList := by
      rw [List.takeWhile_eq_self_iff]
      intro d hd
      simp only [ne_eq, decide_not, Bool.not_eq_true', decide_eq_false_iff_not]
      intro h
      exact hmem (h ▸ hd)
    rw [hall]
    rfl

/-- C12.  `fieldName` returns the part of the json tag before the first comma
when that part is not empty, and the name of the field otherwise; the second
case covers a field without json tag, whose tag value reads as the empty
string. -/
theorem fieldName_spec (f : StructField) :
    fieldName f =
        (if String.mk ((f.tagGet "json").toList.takeWhile (fun d => d ≠ ',')) = "" then f.Name
         else String.mk ((f.tagGet "json").toList.takeWhile (fun d => d ≠ ','))) ∧
      (mapGet f.Tag "json" = none → f.tagGet "json" = "") := by
  constructor
  · obtain ⟨tail, htail⟩ := splitN2_head (f.tagGet "json")
    have hname : tagName = "json" := rfl
    simp only [fieldName, hname, htail]
    by_cases htag : f.tagGet "json" = ""
    · simp [htag]
    · simp only [ne_eq, htag, not_false_eq_true, if_true]
      by_cases hhead : String.mk ((f.tagGet "json").toList.takeWhile (fun d => d ≠ ',')) = ""
      · simp [hhead]
      · simp [hhead]
  · intro h
    simp [StructField.tagGet, h]

/-- Witness of C12: a field without json tag and a field tagged `,omitempty`
keep their name, a field tagged `operand,omitempty` is named `operand`. -/
theorem fieldName_spec_witness :
    StructField.tagGet untaggedField "json" = "" ∧ fieldName untaggedField = "Body" ∧
      fieldName commaField = "Operand" ∧ fieldName optionField = "operand" :=
  ⟨(fieldName_spec untaggedField).2 rfl, by decide, by decide, by decide⟩

/-! ## Untagged objects, non-string discriminators, non-object texts -/

/-- A value of the JSON parser never has kind `Struct`. -/
theorem fromJSON_kind {v : Value} (h : v.fromJSON = true) : v.kind ≠ Kind.Struct := by
  cases v with
  | other k => simp [Value.fromJSON] at h
  | _ => simp [Value.kind]

theorem entriesFromJSON_mem {m : Object} (h : entriesFromJSON m = true) :
    ∀ e ∈ m, e.2.fromJSON = true := by
  induction m with
  | nil => intro e he; cases he
  | cons e0 rest ih =>
    obtain ⟨k, v⟩ := e0
    simp only [entriesFromJSON, Bool.and_eq_true] at h
    intro e he
    rcases List.mem_cons.mp he with rfl | he
    · exact h.1
    · exact ih h.2 e he

/-- C18.  For every registry and every object of the JSON parser that lacks
the discriminator key, `unpackStruct` returns an empty generic map and no
error: no entry is copied and no nested object is decoded, because no value
of the parser has kind `Struct`. -/
theorem unpackStruct_untagged_json (r : Reflector) (key : String) (object : Object)
    (hjson : (Value.object object).fromJSON = true) (hkey : mapGet object key = none) :
    unpackStruct r key object = .ok (.generic []) := by
  rw [unpackStruct_untagged hkey, unpackGenericStruct_result]
  have hall : ∀ e ∈ object, e.2.kind ≠ Kind.Struct := by
    intro e he
    simp only [Value.fromJSON] at hjson
    exact fromJSON_kind (entriesFromJSON_mem hjson e he)
  rw [if_pos hall]

/-- Witness of C18: the operand of `test4` with the empty registry. -/
theorem unpackStruct_untagged_json_witness :
    unpackStruct New "op" test4Operand = .ok (.generic []) :=
  unpackStruct_untagged_json New "op" test4Operand (by decide) rfl

/-- A discriminator that is not a string ends the call with an error. -/
theorem unpackStruct_nonString {r : Reflector} {key : String} {object : Object}
    {which : Value} (hkey : mapGet object key = some which)
    (hshape : ∀ s, which ≠ .string s) :
    unpackStruct r key object = .fail .nil (.keyNotString key) := by
  rw [unpackStruct, hkey]
  cases which with
  | string s => exact absurd rfl (hshape s)
  | _ => rfl

/-- C19.  When the discriminator key is present and its value is not a string,
`unpackStruct` returns `nil` and the error that names the key; the object is
not handed to `unpackGenericStruct`, whatever that call would return. -/
theorem unpackStruct_key_not_string (r : Reflector) (key : String) (object : Object)
    (which : Value) (hkey : mapGet object key = some which)
    (hshape : ∀ s, which ≠ .string s) :
    unpackStruct r key object = .fail .nil (.keyNotString key) :=
  unpackStruct_nonString hkey hshape

/-- Witness of C19: in `{"op": 7, "body": "foo"}` the discriminator is a
number; the generic walk of the same object would return an empty map. -/
theorem unpackStruct_key_not_string_witness :
    unpackStruct testReflector "op" numberTagDoc = .fail .nil (.keyNotString "op") ∧
      unpackGenericStruct testReflector "op" numberTagDoc = .ok (.generic []) :=
  ⟨unpackStruct_key_not_string testReflector "op" numberTagDoc (.number 7) rfl
      (fun s h => by cases h),
    by
      rw [unpackGenericStruct_result, if_pos]
      intro e he
      simp only [numberTagDoc, List.mem_cons, List.mem_singleton, List.not_mem_nil,
        or_false] at he
      rcases he with rfl | rfl <;> decide⟩

/-- C20.  For a text that parses to a value that is not an object,
`UnpackSkeleton` and `Unpack` return `nil` and the non-object error, whatever
the registry holds: the registry is not consulted. -/
theorem Unpack_non_object {γ : Type} (parse : String → Except String Value)
    (fill : String → Skeleton → Except String γ) (r : Reflector) (key src : String)
    (jsonVal : Value) (hparse : parse src = .ok jsonVal)
    (hshape : ∀ m, jsonVal ≠ .object m) :
    UnpackSkeleton parse r key src = .fail .nil .nonObjectJSON ∧
      Unpack parse fill r key src = .fail .nil .nonObjectJSON ∧
      ∀ r1 : Reflector,
        UnpackSkeleton parse r1 key src = UnpackSkeleton parse r key src ∧
        Unpack parse fill r1 key src = Unpack parse fill r key src := by
  have hskel : ∀ r0 : Reflector,
      UnpackSkeleton parse r0 key src = .fail .nil .nonObjectJSON := by
    intro r0
    cases jsonVal with
    | object m => exact absurd rfl (hshape m)
    | _ => simp only [UnpackSkeleton, hparse]
  have hunpack : ∀ r0 : Reflector,
      Unpack parse fill r0 key src = .fail .nil .nonObjectJSON := by
    intro r0
    simp only [Unpack, hskel r0]
  refine ⟨hskel r, hunpack r, ?_⟩
  intro r1
  rw [hskel r1, hskel r, hunpack r1, hunpack r]
  exact ⟨rfl, rfl⟩

/-- Witness of C20: a text that parses to the array `["foo"]`, with a filler
that never fails. -/
theorem Unpack_non_object_witness :
    UnpackSkeleton (fun _ => .ok (.array [.string "foo"])) testReflector "op" "[\"foo\"]" =
        .fail .nil .nonObjectJSON ∧
      Unpack (fun _ => .ok (.array [.string "foo"])) (fun _ s => .ok s) testReflector "op"
          "[\"foo\"]" = .fail .nil .nonObjectJSON :=
  have h := Unpack_non_object (fun _ => .ok (.array [.string "foo"]))
    (fun _ (s : Skeleton) => (.ok s : Except String Skeleton)) testReflector "op" "[\"foo\"]"
    (.array [.string "foo"]) rfl (fun m hm => by cases hm)
  ⟨h.1, h.2.1⟩

/-! ## Recursion depth -/

/-- A binding of an object is no deeper than the deepest value of the object. -/
theorem mapGet_depth {m : Object} {k : String} {v : Value} (h : mapGet m k = some v) :
    v.depth ≤ depthEntries m := by
  induction m with
  | nil => simp [mapGet] at h
  | cons e rest ih =>
    obtain ⟨k0, v0⟩ := e
    simp only [mapGet] at h
    simp only [depthEntries]
    split at h
    · simp only [Option.some.injEq] at h
      subst h
      exact Nat.le_max_left _ _
    · exact Nat.le_trans (ih h) (Nat.le_max_right _ _)

/-- A value of an object is no deeper than the deepest value of the object. -/
theorem mem_depth {m : Object} {e : String × Value} (h : e ∈ m) :
    e.2.depth ≤ depthEntries m := by
  induction m with
  | nil => cases h
  | cons e0 rest ih =>
    obtain ⟨k0, v0⟩ := e0
    simp only [depthEntries]
    rcases List.mem_cons.mp h with rfl | h
    · exact Nat.le_max_left _ _
    · exact Nat.le_trans (ih h) (Nat.le_max_right _ _)

theorem nestedSkeleton_methods (n : Nat) : (nestedSkeleton n).methods = ["Which"] := by
  cases n <;> rfl

theorem nestedUnary_depth (n : Nat) : (Value.object (nestedUnary n)).depth = n + 1 := by
  induction n with
  | zero => rfl
  | succ n ih =>
    simp only [nestedUnary, Value.depth, depthEntries] at ih ⊢
    omega

/-- The result of `unpackStruct` on `nestedUnary n`, which the decoder reaches
when it has room for its nested calls (`nestedUnary_run`). -/
theorem nestedUnary_ok (n : Nat) :
    unpackStruct testReflector "op" (nestedUnary n) = .ok (nestedSkeleton n) := by
  induction n with
  | zero => exact unpackStruct_of_run 1 rfl
  | succ n ih =>
    have hkey : mapGet (nestedUnary (n + 1)) "op" = some (.string "UnaryExpr") := rfl
    have hreg : mapGet testReflector "UnaryExpr" = some UnaryExpr := rfl
    rw [unpackStruct_tagged hkey hreg rfl]
    have hfields : UnaryExpr.Fields = [opField, operandField] := rfl
    have hsub : mapGet (nestedUnary (n + 1)) (fieldName operandField) =
        some (.object (nestedUnary n)) := rfl
    have hset : setField operandField (nestedSkeleton n) = .ok (some (nestedSkeleton n)) := by
      simp [setField, nestedSkeleton_methods, exprMethods, operandField]
    have hop : unpackField testReflector "op" (nestedUnary (n + 1)) "UnaryExpr" opField =
        .ok none := unpackField_scalar (by decide) (by decide) (by decide)
    have hoperand : unpackField testReflector "op" (nestedUnary (n + 1)) "UnaryExpr"
        operandField = .ok (some (nestedSkeleton n)) := by
      rw [unpackField_interface rfl, hsub]
      simp only [ih, hset]
    rw [hfields, unpackFields_cons, hop]
    simp only
    rw [unpackFields_cons, hoperand]
    simp only [unpackFields_nil]
    rfl

theorem runField_complete {r : Reflector} {key : String}
    {callee : Object → Option (Outcome Skeleton)} {object : Object}
    (hc : ∀ name subMap, mapGet object name = some (.object subMap) →
      callee subMap = some (unpackStruct r key subMap))
    (templateKey : String) (f : StructField) :
    runField callee key object templateKey f =
      some (unpackField r key object templateKey f) := by
  unfold runField
  by_cases hi : f.Kind = Kind.Interface
  · rw [unpackField_interface hi]
    simp only [hi]
    cases hget : mapGet object (fieldName f) with
    | none => rfl
    | some v =>
      cases v with
      | object subMap =>
        simp only [hc _ _ hget]
        cases unpackStruct r key subMap <;> rfl
      | _ => rfl
  · by_cases ha : f.Kind = Kind.Array
    · rw [unpackField_array ha]
      simp only [ha]
    · by_cases hs : f.Kind = Kind.Slice
      · rw [unpackField_slice hs]
        simp only [hs]
      · rw [unpackField_scalar hi ha hs]
        split
        · exact absurd (by assumption) hi
        · exact absurd (by assumption) ha
        · exact absurd (by assumption) hs
        · rfl

theorem runFields_complete {r : Reflector} {key : String}
    {callee : Object → Option (Outcome Skeleton)} {object : Object}
    (hc : ∀ name subMap, mapGet object name = some (.object subMap) →
      callee subMap = some (unpackStruct r key subMap))
    (templateKey : String) (fields : List StructField) :
    runFields callee key object templateKey fields =
      some (unpackFields r key object templateKey fields) := by
  induction fields with
  | nil => rw [unpackFields_nil]; rfl
  | cons f rest ih =>
    rw [unpackFields_cons]
    simp only [runFields, runField_complete hc, ih]
    cases unpackField r key object templateKey f with
    | ok slot =>
      simp only
      cases unpackFields r key object templateKey rest <;> rfl
    | fail b e => rfl
    | panic p => rfl

theorem runGenericLoop_complete (r : Reflector) (key : String)
    (callee : Object → Option (Outcome Skeleton)) (entries : Object)
    (out : List (String × Skeleton)) :
    runGenericLoop callee entries out = some (genericLoop r key entries out) := by
  induction entries generalizing out with
  | nil => rw [genericLoop_nil]; rfl
  | cons e rest ih =>
    obtain ⟨k, v⟩ := e
    rw [genericLoop_cons]
    simp only [runGenericLoop]
    by_cases hk : v.kind = Kind.Struct
    · simp only [hk, if_true]
      cases v with
      | object subObj => simp [Value.kind] at hk
      | _ => rfl
    · simp only [hk, if_false]
      exact ih out

/-- The evaluator answers as soon as its bound reaches the nesting depth of
the object. -/
theorem runStruct_complete (r : Reflector) (key : String) (n : Nat) (object : Object)
    (hdepth : (Value.object object).depth ≤ n) :
    runStruct r key n object = some (unpackStruct r key object) := by
  induction n generalizing object with
  | zero => simp [Value.depth] at hdepth
  | succ n ih =>
    have hc : ∀ name subMap, mapGet object name = some (.object subMap) →
        runStruct r key n subMap = some (unpackStruct r key subMap) := by
      intro name subMap hget
      apply ih
      have := mapGet_depth hget
      simp only [Value.depth] at hdepth this ⊢
      omega
    simp only [runStruct]
    cases hkey : mapGet object key with
    | none =>
      rw [unpackStruct_untagged hkey, unpackGenericStruct,
        runGenericLoop_complete r key]
      cases genericLoop r key object [] <;> rfl
    | some which =>
      cases which with
      | string templateKey =>
        simp only
        cases hreg : mapGet r templateKey with
        | none =>
          rw [unpackStruct_unregistered hkey hreg]
        | some typ =>
          by_cases hstruct : typ.Kind = Kind.Struct
          · rw [unpackStruct_tagged hkey hreg hstruct]
            simp only [hstruct, ne_eq, not_true_eq_false, if_false,
              runFields_complete hc]
            cases unpackFields r key object templateKey typ.Fields <;> rfl
          · rw [unpackStruct_nonStruct hkey hreg hstruct]
            simp only [hstruct, ne_eq, not_false_eq_true, if_true]
      | _ =>
        rw [unpackStruct, hkey]

/-- Without room for its nested calls the decoder does not complete on
`nestedUnary n`: every level of the document costs one nested call. -/
theorem nestedUnary_cut (room n : Nat) (hroom : room ≤ n) :
    runStruct testReflector "op" room (nestedUnary n) = none := by
  induction room generalizing n with
  | zero => rfl
  | succ l ih =>
    cases n with
    | zero => omega
    | succ m =>
      have hsub : runStruct testReflector "op" l (nestedUnary m) = none := ih m (by omega)
      have hkey : mapGet (nestedUnary (m + 1)) "op" = some (.string "UnaryExpr") := rfl
      have hreg : mapGet testReflector "UnaryExpr" = some UnaryExpr := rfl
      have hkind : UnaryExpr.Kind = Kind.Struct := rfl
      have hfields : UnaryExpr.Fields = [opField, operandField] := rfl
      have hget : mapGet (nestedUnary (m + 1)) (fieldName operandField) =
          some (.object (nestedUnary m)) := rfl
      have hop : runField (runStruct testReflector "op" l) "op" (nestedUnary (m + 1))
          "UnaryExpr" opField = some (.ok none) := rfl
      have hoperand : runField (runStruct testReflector "op" l) "op" (nestedUnary (m + 1))
          "UnaryExpr" operandField = none := by
        have hi : operandField.Kind = Kind.Interface := rfl
        simp only [runField, hi, hget, hsub]
      have hfs : runFields (runStruct testReflector "op" l) "op" (nestedUnary (m + 1))
          "UnaryExpr" UnaryExpr.Fields = none := by
        rw [hfields]
        simp only [runFields, hop, hoperand]
      rw [runStruct]
      simp only [hkey, hreg]
      rw [if_neg (by simp [hkind]), hfs]

/-- With room for its nested calls the decoder completes on `nestedUnary n`
with the skeleton, and without it the decoder does not complete. -/
theorem nestedUnary_run (room n : Nat) :
    runStruct testReflector "op" room (nestedUnary n) =
      if n < room then some (.ok (nestedSkeleton n)) else none := by
  by_cases h : n < room
  · rw [if_pos h, runStruct_complete testReflector "op" room (nestedUnary n)
      (by rw [nestedUnary_depth]; omega), nestedUnary_ok]
  · rw [if_neg h]
    exact nestedUnary_cut room n (by omega)

/-- C15 as stated fails: no maximum on the nesting depth makes the decoder
return an error.  Whatever the room for nested calls and whatever the maximum,
the document of that many nested `UnaryExpr` objects is deeper than the
maximum, and on it the decoder either returns the skeleton or, out of room,
does not return (in Go the stack is exhausted, which ends the program): it
returns no error. -/
theorem no_depth_limit :
    ¬ ∃ room limit : Nat, ∀ (r : Reflector) (key : String) (object : Object),
        limit < (Value.object object).depth →
        ∃ b e, runStruct r key room object = some (.fail b e) := by
  rintro ⟨room, limit, h⟩
  obtain ⟨b, e, hfail⟩ := h testReflector "op" (nestedUnary limit)
    (by rw [nestedUnary_depth]; omega)
  rw [nestedUnary_run] at hfail
  split at hfail <;> cases hfail

/-- C15, amended.  `unpackStruct` and `unpackGenericStruct` have no depth guard
and no depth error: the decoder recurses as deep as the document is nested.  On
the document of `n` nested `UnaryExpr` objects around a `Terminal`, of nesting
depth `n + 1`, it returns the skeleton when it has room for more than `n`
nested calls, and does not return otherwise (`none`: in Go the stack is
exhausted); in neither case does it return an error.  The one depth limit on
the way is that of the JSON parser: a text that the parser rejects, for its
nesting or for anything else, makes `UnpackSkeleton` return the parse error. -/
theorem decoder_has_no_depth_guard (room n : Nat) :
    runStruct testReflector "op" room (nestedUnary n) =
        (if n < room then some (.ok (nestedSkeleton n)) else none) ∧
      (Value.object (nestedUnary n)).depth = n + 1 ∧
      ∀ (parse : String → Except String Value) (r : Reflector) (key src cause : String),
        parse src = .error cause →
        UnpackSkeleton parse r key src = .fail .nil (.parseError cause) := by
  refine ⟨nestedUnary_run room n, nestedUnary_depth n, ?_⟩
  intro parse r key src cause hparse
  simp only [UnpackSkeleton, hparse]

/-- Witness of C15, amended: three nested objects decode with room for four
nested calls and not with room for three, and a parser that rejects the text
for its depth makes `UnpackSkeleton` return that error. -/
theorem decoder_has_no_depth_guard_witness :
    runStruct testReflector "op" 4 (nestedUnary 3) = some (.ok (nestedSkeleton 3)) ∧
      runStruct testReflector "op" 3 (nestedUnary 3) = none ∧
      UnpackSkeleton (fun _ => .error "exceeded max depth") testReflector "op" "deep" =
        .fail .nil (.parseError "exceeded max depth") :=
  ⟨(decoder_has_no_depth_guard 4 3).1, (decoder_has_no_depth_guard 3 3).1,
    (decoder_has_no_depth_guard 0 0).2.2 (fun _ => .error "exceeded max depth")
      testReflector "op" "deep" "exceeded max depth" rfl⟩

/-- C17.  `unpackStruct` is a total function of the registry, the key and the
object, and its recursion is no deeper than the nesting of the object: run
with a bound on the depth of the nested calls that is at least the nesting
depth of the object, the decoder completes with the result of `unpackStruct`.
Every nested call is on an object stored in the argument (under the name of a
field for `unpackStruct`, in any entry for the generic walk), which is
strictly less deep than the argument. -/
theorem unpackStruct_depth_bound (r : Reflector) (key : String) (object : Object) (n : Nat)
    (hdepth : (Value.object object).depth ≤ n) :
    runStruct r key n object = some (unpackStruct r key object) ∧
      (∀ name subMap, mapGet object name = some (.object subMap) →
        (Value.object subMap).depth < (Value.object object).depth) ∧
      (∀ k subObj, (k, Value.object subObj) ∈ object →
        (Value.object subObj).depth < (Value.object object).depth) := by
  refine ⟨runStruct_complete r key n object hdepth, ?_, ?_⟩
  · intro name subMap hget
    have := mapGet_depth hget
    simp only [Value.depth] at this ⊢
    omega
  · intro k subObj hmem
    have := mem_depth hmem
    simp only [Value.depth] at this ⊢
    omega

/-- Witness of C17: `test2` has nesting depth 3 and decodes within 3 nested
calls. -/
theorem unpackStruct_depth_bound_witness :
    (Value.object test2).depth = 3 ∧
      runStruct testReflector "op" 3 test2 = some (unpackStruct testReflector "op" test2) :=
  ⟨by decide, (unpackStruct_depth_bound testReflector "op" test2 3 (by decide)).1⟩

/-! ## The order of the entries of an object -/

/-- Every binding of an object is smaller than the object. -/
theorem mapGet_sizeOf {m : Object} {k : String} {v : Value} (h : mapGet m k = some v) :
    sizeOf v < sizeOf m := by
  induction m with
  | nil => simp [mapGet] at h
  | cons e rest ih =>
    obtain ⟨k0, v0⟩ := e
    simp only [mapGet] at h
    split at h
    · simp only [Option.some.injEq] at h
      subst h
      simp only [List.cons.sizeOf_spec, Prod.mk.sizeOf_spec]
      omega
    · have := ih h
      simp only [List.cons.sizeOf_spec]
      omega

/-- Reordering keeps the shape of a value: the two values are equal, or both
objects, or both arrays. -/
theorem Reordered.shape {v1 v2 : Value} (h : Reordered v1 v2) :
    v1 = v2 ∨ (∃ m1 m2, v1 = .object m1 ∧ v2 = .object m2) ∨
      (∃ xs ys, v1 = .array xs ∧ v2 = .array ys) := by
  induction h with
  | same v => exact Or.inl rfl
  | swap a b m hkeys => exact Or.inr (Or.inl ⟨_, _, rfl, rfl⟩)
  | entry k v1 v2 m1 m2 _ _ _ _ => exact Or.inr (Or.inl ⟨_, _, rfl, rfl⟩)
  | element v1 v2 xs ys _ _ _ _ => exact Or.inr (Or.inr ⟨_, _, rfl, rfl⟩)
  | trans a b c _ _ ih1 ih2 =>
    rcases ih1 with rfl | ⟨m1, m2, rfl, rfl⟩ | ⟨xs, ys, rfl, rfl⟩
    · exact ih2
    · rcases ih2 with rfl | ⟨m3, m4, h3, rfl⟩ | ⟨xs, ys, h3, rfl⟩
      · exact Or.inr (Or.inl ⟨_, _, rfl, rfl⟩)
      · exact Or.inr (Or.inl ⟨_, _, rfl, rfl⟩)
      · cases h3
    · rcases ih2 with rfl | ⟨m3, m4, h3, rfl⟩ | ⟨xs1, ys1, h3, rfl⟩
      · exact Or.inr (Or.inr ⟨_, _, rfl, rfl⟩)
      · cases h3
      · exact Or.inr (Or.inr ⟨_, _, rfl, rfl⟩)

theorem Reordered.kind_eq {v1 v2 : Value} (h : Reordered v1 v2) : v1.kind = v2.kind := by
  rcases h.shape with rfl | ⟨m1, m2, rfl, rfl⟩ | ⟨xs, ys, rfl, rfl⟩ <;> rfl

theorem LookupSame.refl (o : Option Value) : LookupSame o o := by
  cases o with
  | none => trivial
  | some v => exact Reordered.same v

theorem LookupSame.trans {o1 o2 o3 : Option Value} (h12 : LookupSame o1 o2)
    (h23 : LookupSame o2 o3) : LookupSame o1 o3 := by
  cases o1 <;> cases o2 <;> cases o3 <;> simp only [LookupSame] at h12 h23 ⊢
  exact Reordered.trans _ _ _ h12 h23

/-- Reordered objects bind every key alike, and hold values of the same kinds. -/
theorem Reordered.lookups {v1 v2 : Value} (h : Reordered v1 v2) :
    ∀ m1 m2, v1 = .object m1 → v2 = .object m2 →
      (∀ k, LookupSame (mapGet m1 k) (mapGet m2 k)) ∧
      ((∀ e ∈ m1, e.2.kind ≠ Kind.Struct) ↔ (∀ e ∈ m2, e.2.kind ≠ Kind.Struct)) := by
  induction h with
  | same v =>
    intro m1 m2 h1 h2
    rw [h1] at h2
    cases h2
    exact ⟨fun k => LookupSame.refl _, Iff.rfl⟩
  | swap a b m hkeys =>
    intro m1 m2 h1 h2
    cases h1
    cases h2
    obtain ⟨ka, va⟩ := a
    obtain ⟨kb, vb⟩ := b
    simp only at hkeys
    constructor
    · intro k
      simp only [mapGet]
      by_cases ha : ka = k
      · have hb : ¬ kb = k := fun hb => hkeys (ha.trans hb.symm)
        simp only [ha, hb, if_true, if_false]
        exact Reordered.same va
      · by_cases hb : kb = k
        · simp only [ha, hb, if_true, if_false]
          exact Reordered.same vb
        · simp only [ha, hb, if_false]
          exact LookupSame.refl _
    · simp only [List.mem_cons]
      constructor
      · intro hall e he
        rcases he with he | he | he
        · exact hall e (Or.inr (Or.inl he))
        · exact hall e (Or.inl he)
        · exact hall e (Or.inr (Or.inr he))
      · intro hall e he
        rcases he with he | he | he
        · exact hall e (Or.inr (Or.inl he))
        · exact hall e (Or.inl he)
        · exact hall e (Or.inr (Or.inr he))
  | entry k0 w1 w2 n1 n2 hw hn _ ih2 =>
    intro m1 m2 h1 h2
    cases h1
    cases h2
    obtain ⟨hlook, hkinds⟩ := ih2 n1 n2 rfl rfl
    constructor
    · intro k
      simp only [mapGet]
      by_cases hk : k0 = k
      · simp only [hk, if_true]
        exact hw
      · simp only [hk, if_false]
        exact hlook k
    · simp only [List.mem_cons]
      constructor
      · intro hall e he
        rcases he with rfl | he
        · have := hall (k0, w1) (Or.inl rfl)
          simp only at this ⊢
          rw [← hw.kind_eq]
          exact this
        · exact hkinds.mp (fun e1 he1 => hall e1 (Or.inr he1)) e he
      · intro hall e he
        rcases he with rfl | he
        · have := hall (k0, w2) (Or.inl rfl)
          simp only at this ⊢
          rw [hw.kind_eq]
          exact this
        · exact hkinds.mpr (fun e1 he1 => hall e1 (Or.inr he1)) e he
  | element w1 w2 xs ys _ _ _ _ =>
    intro m1 m2 h1 h2
    cases h1
  | trans a b c hab hbc ih1 ih2 =>
    intro m1 m2 h1 h2
    subst h1
    subst h2
    rcases hab.shape with hb | ⟨n1, n2, hn1, hn2⟩ | ⟨xs, ys, hx, _⟩
    · exact ih2 m1 m2 hb.symm rfl
    · obtain ⟨hl1, hk1⟩ := ih1 m1 n2 rfl hn2
      obtain ⟨hl2, hk2⟩ := ih2 n2 m2 hn2 rfl
      exact ⟨fun k => (hl1 k).trans (hl2 k), hk1.trans hk2⟩
    · cases hx

theorem unpackStruct_reordered_aux (r : Reflector) (key : String) :
    ∀ (n : Nat) (m1 m2 : Object), sizeOf m1 ≤ n → Reordered (.object m1) (.object m2) →
      unpackStruct r key m1 = unpackStruct r key m2 := by
  intro n
  induction n with
  | zero =>
    intro m1 m2 hsize _
    cases m1 <;> simp at hsize
  | succ n ih =>
    intro m1 m2 hsize hre
    obtain ⟨hlook, hkinds⟩ := hre.lookups m1 m2 rfl rfl
    have hfield : ∀ (templateKey : String) (f : StructField),
        unpackField r key m1 templateKey f = unpackField r key m2 templateKey f := by
      intro templateKey f
      by_cases hi : f.Kind = Kind.Interface
      · rw [unpackField_interface hi, unpackField_interface hi]
        have hl := hlook (fieldName f)
        cases hget1 : mapGet m1 (fieldName f) with
        | none =>
          cases hget2 : mapGet m2 (fieldName f) with
          | none => rfl
          | some w2 => rw [hget1, hget2] at hl; exact absurd hl (by simp [LookupSame])
        | some w1 =>
          cases hget2 : mapGet m2 (fieldName f) with
          | none => rw [hget1, hget2] at hl; exact absurd hl (by simp [LookupSame])
          | some w2 =>
            rw [hget1, hget2] at hl
            simp only [LookupSame] at hl
            rcases hl.shape with rfl | ⟨s1, s2, rfl, rfl⟩ | ⟨xs, ys, rfl, rfl⟩
            · rfl
            · have hlt := mapGet_sizeOf hget1
              simp only [Value.object.sizeOf_spec] at hlt
              simp only [ih s1 s2 (by omega) hl]
            · rfl
      · by_cases ha : f.Kind = Kind.Array
        · rw [unpackField_array ha, unpackField_array ha]
        · by_cases hs : f.Kind = Kind.Slice
          · rw [unpackField_slice hs, unpackField_slice hs]
          · rw [unpackField_scalar hi ha hs, unpackField_scalar hi ha hs]
    have hfields : ∀ (templateKey : String) (fields : List StructField),
        unpackFields r key m1 templateKey fields =
          unpackFields r key m2 templateKey fields := by
      intro templateKey fields
      induction fields with
      | nil => rw [unpackFields_nil, unpackFields_nil]
      | cons f rest ihf => rw [unpackFields_cons, unpackFields_cons, hfield, ihf]
    have hl := hlook key
    cases hkey1 : mapGet m1 key with
    | none =>
      cases hkey2 : mapGet m2 key with
      | none =>
        rw [unpackStruct_untagged hkey1, unpackStruct_untagged hkey2,
          unpackGenericStruct_result, unpackGenericStruct_result]
        by_cases hall : ∀ e ∈ m1, e.2.kind ≠ Kind.Struct
        · rw [if_pos hall, if_pos (hkinds.mp hall)]
        · rw [if_neg hall, if_neg (fun h2 => hall (hkinds.mpr h2))]
      | some w2 => rw [hkey1, hkey2] at hl; exact absurd hl (by simp [LookupSame])
    | some w1 =>
      cases hkey2 : mapGet m2 key with
      | none => rw [hkey1, hkey2] at hl; exact absurd hl (by simp [LookupSame])
      | some w2 =>
        rw [hkey1, hkey2] at hl
        simp only [LookupSame] at hl
        rcases hl.shape with rfl | ⟨s1, s2, rfl, rfl⟩ | ⟨xs, ys, rfl, rfl⟩
        · cases w1 with
          | string templateKey =>
            cases hreg : mapGet r templateKey with
            | none =>
              rw [unpackStruct_unregistered hkey1 hreg, unpackStruct_unregistered hkey2 hreg]
            | some typ =>
              by_cases hstruct : typ.Kind = Kind.Struct
              · rw [unpackStruct_tagged hkey1 hreg hstruct,
                  unpackStruct_tagged hkey2 hreg hstruct, hfields]
              · rw [unpackStruct_nonStruct hkey1 hreg hstruct,
                  unpackStruct_nonStruct hkey2 hreg hstruct]
          | _ =>
            rw [unpackStruct_nonString hkey1 (fun s h => by cases h),
              unpackStruct_nonString hkey2 (fun s h => by cases h)]
        · rw [unpackStruct_nonString hkey1 (fun s h => by cases h),
            unpackStruct_nonString hkey2 (fun s h => by cases h)]
        · rw [unpackStruct_nonString hkey1 (fun s h => by cases h),
            unpackStruct_nonString hkey2 (fun s h => by cases h)]

/-- Any two listings of the entries of a map, whose keys are distinct, are
related by `Reordered`. -/
theorem Reordered.of_perm {m1 m2 : Object} (hperm : m1.Perm m2)
    (hkeys : (mapKeys m1).Nodup) : Reordered (.object m1) (.object m2) := by
  induction hperm with
  | nil => exact Reordered.same _
  | cons x _ ih =>
    obtain ⟨k, v⟩ := x
    simp only [mapKeys, List.map_cons, List.nodup_cons] at hkeys
    exact Reordered.entry k v v _ _ (Reordered.same v) (ih hkeys.2)
  | swap x y l =>
    simp only [mapKeys, List.map_cons, List.nodup_cons, List.mem_cons, not_or] at hkeys
    exact Reordered.swap y x l hkeys.1.1
  | trans p1 _ ih1 ih2 =>
    have hmid := (List.Perm.nodup_iff (List.Perm.map Prod.fst p1)).mp hkeys
    exact Reordered.trans _ _ _ (ih1 hkeys) (ih2 hmid)

/-- C16.  The result of `unpackStruct`, skeleton or error or panic, is the same
for two objects that hold the same entries in different orders, at every
nesting level. -/
theorem unpackStruct_order_independent (r : Reflector) (key : String) (m1 m2 : Object)
    (hre : Reordered (.object m1) (.object m2)) :
    unpackStruct r key m1 = unpackStruct r key m2 :=
  unpackStruct_reordered_aux r key (sizeOf m1) m1 m2 (Nat.le_refl _) hre

/-- Witness of C16: `test1` with `rhs` first and the entries of `rhs`
exchanged. -/
theorem unpackStruct_order_independent_witness :
    unpackStruct testReflector "op" test1 = unpackStruct testReflector "op" test1Reordered :=
  unpackStruct_order_independent testReflector "op" test1 test1Reordered
    (Reordered.trans _
      (.object [("op", .string "BinaryExpr"), ("rhs", .object (terminalDoc "bar")),
                ("lhs", .object (terminalDoc "foo"))]) _
      (Reordered.entry _ _ _ _ _ (Reordered.same _)
        (Reordered.swap _ _ _ (by decide)))
      (Reordered.trans _
        (.object [("rhs", .object (terminalDoc "bar")), ("op", .string "BinaryExpr"),
                  ("lhs", .object (terminalDoc "foo"))]) _
        (Reordered.swap _ _ _ (by decide))
        (Reordered.entry _ _ _ _ _ (Reordered.swap _ _ _ (by decide))
          (Reordered.same _))))

/-! ## The registry after a decode -/

theorem unpackFieldSt_eq {r : Reflector} {key : String} {object : Object}
    (hsub : ∀ name subMap, mapGet object name = some (.object subMap) →
      unpackStructSt r key subMap = (unpackStruct r key subMap, r))
    (templateKey : String) (f : StructField) :
    unpackFieldSt r key object templateKey f =
      (unpackField r key object templateKey f, r) := by
  rw [unpackFieldSt]
  by_cases hi : f.Kind = Kind.Interface
  · rw [unpackField_interface hi]
    simp only [hi]
    split
    · next h => rw [h]
    · next subMap h =>
      rw [h]
      simp only [hsub _ _ h]
      cases unpackStruct r key subMap <;> rfl
    · next v hnot h =>
      rw [h]
      cases v with
      | object m => exact absurd rfl (hnot m)
      | _ => rfl
  · by_cases ha : f.Kind = Kind.Array
    · rw [unpackField_array ha]
      simp only [ha]
    · by_cases hs : f.Kind = Kind.Slice
      · rw [unpackField_slice hs]
        simp only [hs]
      · rw [unpackField_scalar hi ha hs]
        split
        · exact absurd (by assumption) hi
        · exact absurd (by assumption) ha
        · exact absurd (by assumption) hs
        · rfl

theorem unpackFieldsSt_eq {r : Reflector} {key : String} {object : Object}
    (hsub : ∀ name subMap, mapGet object name = some (.object subMap) →
      unpackStructSt r key subMap = (unpackStruct r key subMap, r))
    (templateKey : String) (fields : List StructField) :
    unpackFieldsSt r key object templateKey fields =
      (unpackFields r key object templateKey fields, r) := by
  induction fields with
  | nil => rw [unpackFieldsSt, unpackFields_nil]
  | cons f rest ih =>
    rw [unpackFieldsSt, unpackFields_cons, unpackFieldSt_eq hsub]
    cases unpackField r key object templateKey f with
    | ok slot =>
      simp only [ih]
      cases unpackFields r key object templateKey rest <;> rfl
    | fail b e => rfl
    | panic p => rfl

theorem genericLoopSt_eq (r : Reflector) (keyField : String) (entries : Object)
    (out : List (String × Skeleton)) :
    genericLoopSt r keyField entries out = (genericLoop r keyField entries out, r) := by
  induction entries generalizing out with
  | nil => rw [genericLoopSt, genericLoop_nil]
  | cons e rest ih =>
    obtain ⟨k, v⟩ := e
    rw [genericLoop_cons]
    by_cases hk : v.kind = Kind.Struct
    · cases v with
      | object subObj => simp [Value.kind] at hk
      | _ => simp [genericLoopSt, hk]
    · cases v <;> simp [genericLoopSt, hk, ih]

theorem unpackStructSt_eq_aux (r : Reflector) (key : String) :
    ∀ (n : Nat) (object : Object), sizeOf object ≤ n →
      unpackStructSt r key object = (unpackStruct r key object, r) := by
  intro n
  induction n with
  | zero =>
    intro object hsize
    cases object <;> simp at hsize
  | succ n ih =>
    intro object hsize
    have hsub : ∀ name subMap, mapGet object name = some (.object subMap) →
        unpackStructSt r key subMap = (unpackStruct r key subMap, r) := by
      intro name subMap hget
      have hlt := mapGet_sizeOf hget
      simp only [Value.object.sizeOf_spec] at hlt
      exact ih subMap (by omega)
    rw [unpackStructSt]
    cases hkey : mapGet object key with
    | none =>
      simp only
      rw [unpackStruct_untagged hkey, unpackGenericStructSt, unpackGenericStruct,
        genericLoopSt_eq]
      cases genericLoop r key object [] <;> rfl
    | some which =>
      cases which with
      | string templateKey =>
        simp only
        cases hreg : mapGet r templateKey with
        | none => rw [unpackStruct_unregistered hkey hreg]
        | some typ =>
          by_cases hstruct : typ.Kind = Kind.Struct
          · rw [unpackStruct_tagged hkey hreg hstruct]
            simp only [hstruct, ne_eq, not_true_eq_false, if_false,
              unpackFieldsSt_eq hsub]
            cases unpackFields r key object templateKey typ.Fields <;> rfl
          · rw [unpackStruct_nonStruct hkey hreg hstruct]
            simp only [hstruct, ne_eq, not_false_eq_true, if_true]
      | _ => rw [unpackStruct_nonString hkey (fun s h => by cases h)]

/-- The decoder returns the registry it was given, next to the result of
`unpackStruct`. -/
theorem unpackStructSt_eq (r : Reflector) (key : String) (object : Object) :
    unpackStructSt r key object = (unpackStruct r key object, r) :=
  unpackStructSt_eq_aux r key (sizeOf object) object (Nat.le_refl _)

/-- C14.  After `unpackStruct` and after `UnpackSkeleton`, whatever the result
(skeleton, error or panic), the registry is what it was before the call, so a
decode that follows another one returns what it would have returned first. -/
theorem decode_keeps_registry (parse : String → Except String Value) (r : Reflector)
    (key src : String) (object : Object) :
    (unpackStructSt r key object).2 = r ∧
      (UnpackSkeletonSt parse r key src).2 = r ∧
      (∀ (key1 : String) (object1 : Object),
        (unpackStructSt (unpackStructSt r key object).2 key1 object1).1 =
          (unpackStructSt r key1 object1).1) ∧
      (unpackStructSt r key object).1 = unpackStruct r key object := by
  have h1 : (unpackStructSt r key object).2 = r := by rw [unpackStructSt_eq]
  refine ⟨h1, ?_, ?_, ?_⟩
  · simp only [UnpackSkeletonSt]
    cases parse src with
    | error cause => rfl
    | ok jsonVal =>
      cases jsonVal with
      | object m => simp only [unpackStructSt_eq]
      | _ => rfl
  · intro key1 object1
    rw [h1]
  · rw [unpackStructSt_eq]

/-- Witness of C14: after the failed decode of a document tagged `Mystery` the
registry of the tests is unchanged, and `test1` then decodes as it does on the
registry of the tests. -/
theorem decode_keeps_registry_witness :
    (unpackStructSt testReflector "op" mysteryDoc).2 = testReflector ∧
      (unpackStructSt (unpackStructSt testReflector "op" mysteryDoc).2 "op" test1).1 =
        (unpackStructSt testReflector "op" test1).1 ∧
      (unpackStructSt testReflector "op" mysteryDoc).1 =
        .fail .nil (.noTemplate "op" "Mystery") :=
  have h := decode_keeps_registry (fun _ => .error "") testReflector "op" "" mysteryDoc
  ⟨h.1, h.2.2.1 "op" test1, h.2.2.2.trans (unpackStruct_of_run 1 rfl)⟩

/-! ## The round trip -/

theorem shape_methods (n : Node) : (shape n).methods = n.methods := by
  cases n <;> rfl

/-- Every node held by a field of a well-typed node is well typed. -/
theorem fieldsTyped_nested {r : Reflector} {fs : List StructField} {xs : List FieldVal}
    (h : fieldsTyped r fs xs = true) :
    ∀ n, FieldVal.iface n ∈ xs → n.typed r = true := by
  induction fs generalizing xs with
  | nil =>
    cases xs with
    | nil => intro n hn; cases hn
    | cons x0 xs => simp [fieldsTyped] at h
  | cons f0 fs ih =>
    cases xs with
    | nil => intro n hn; cases hn
    | cons x0 xs =>
      simp only [fieldsTyped, Bool.and_eq_true] at h
      intro n hn
      rcases List.mem_cons.mp hn with rfl | hn
      · have h0 := h.1
        simp only [fieldTyped, Bool.and_eq_true] at h0
        exact h0.2
      · exact ih h.2 n hn

/-- The field loop on a document that serializes a node, given the decode of
the documents of the nested nodes. -/
theorem unpackFields_serialized {r : Reflector} {key typeName : String} {doc : Object}
    {fs : List StructField} {xs : List FieldVal}
    (htyped : fieldsTyped r fs xs = true) (hser : FieldsSerialized key doc fs xs)
    (hnested : ∀ n sub, FieldVal.iface n ∈ xs → Serializes key n sub →
      unpackStruct r key sub = .ok (shape n)) :
    unpackFields r key doc typeName fs = .ok (shapeSlots xs) := by
  induction fs generalizing xs with
  | nil =>
    cases xs with
    | nil => rw [unpackFields_nil]; rfl
    | cons x0 xs => simp [fieldsTyped] at htyped
  | cons f0 fs ih =>
    cases xs with
    | nil => simp [fieldsTyped] at htyped
    | cons x0 xs =>
      simp only [fieldsTyped, Bool.and_eq_true] at htyped
      simp only [FieldsSerialized] at hser
      have htail := ih htyped.2 hser.2
        (fun n sub hn => hnested n sub (List.mem_cons_of_mem _ hn))
      have hhead : unpackField r key doc typeName f0 = .ok (shapeSlot x0) := by
        cases x0 with
        | scalar v =>
          have h0 := htyped.1
          simp only [fieldTyped, Bool.and_eq_true, decide_eq_true_eq] at h0
          rw [unpackField_scalar h0.1.1 h0.1.2 h0.2]
          rfl
        | iface n =>
          have h0 := htyped.1
          simp only [fieldTyped, Bool.and_eq_true, decide_eq_true_eq] at h0
          have h1 := hser.1
          rw [unpackField_interface h0.1.1.1]
          cases hget : mapGet doc (fieldName f0) with
          | none => rw [hget] at h1; simp [FieldSerialized] at h1
          | some w =>
            rw [hget] at h1
            cases w with
            | object sub =>
              simp only [FieldSerialized] at h1
              simp only [hnested n sub (List.mem_cons_self _ _) h1]
              simp only [setField, h0.1.1.2, ne_eq, not_true_eq_false, if_false,
                shape_methods, h0.1.2, if_true]
              rfl
            | _ => simp [FieldSerialized] at h1
      rw [unpackFields_cons, hhead]
      simp only [htail]
      rfl

/-- The filler on a document that serializes a node, given the fill of the
nested nodes. -/
theorem fillFields_serialized {r : Reflector} {key : String} {doc : Object}
    {fs : List StructField} {xs : List FieldVal}
    (htyped : fieldsTyped r fs xs = true) (hser : FieldsSerialized key doc fs xs)
    (hnested : ∀ n sub, FieldVal.iface n ∈ xs → Serializes key n sub →
      fillNode sub (shape n) = .ok n) :
    fillFields doc fs (shapeSlots xs) = .ok xs := by
  induction fs generalizing xs with
  | nil =>
    cases xs with
    | nil => rfl
    | cons x0 xs => simp [fieldsTyped] at htyped
  | cons f0 fs ih =>
    cases xs with
    | nil => simp [fieldsTyped] at htyped
    | cons x0 xs =>
      simp only [fieldsTyped, Bool.and_eq_true] at htyped
      simp only [FieldsSerialized] at hser
      have htail := ih htyped.2 hser.2
        (fun n sub hn => hnested n sub (List.mem_cons_of_mem _ hn))
      have h1 := hser.1
      have hhead : fillSlot doc f0 (shapeSlot x0) = .ok x0 := by
        cases x0 with
        | scalar v =>
          simp only [FieldSerialized] at h1
          simp [shapeSlot, fillSlot, h1]
        | iface n =>
          cases hget : mapGet doc (fieldName f0) with
          | none => rw [hget] at h1; simp [FieldSerialized] at h1
          | some w =>
            rw [hget] at h1
            cases w with
            | object sub =>
              simp only [FieldSerialized] at h1
              simp only [shapeSlot, fillSlot, hget,
                hnested n sub (List.mem_cons_self _ _) h1]
            | _ => simp [FieldSerialized] at h1
      simp only [shapeSlots, fillFields, hhead, htail]

theorem round_trip_aux (r : Reflector) (key : String) :
    ∀ (size : Nat) (g : Node) (doc : Object), sizeOf g ≤ size → g.typed r = true →
      Serializes key g doc →
      unpackStruct r key doc = .ok (shape g) ∧ fillNode doc (shape g) = .ok g := by
  intro size
  induction size with
  | zero =>
    intro g doc hsize
    cases g <;> simp at hsize
  | succ size ih =>
    intro g doc hsize htyped hser
    cases g with
    | raw m => simp [Node.typed] at htyped
    | ptr typ xs =>
      simp only [Node.typed, Bool.and_eq_true, decide_eq_true_eq] at htyped
      obtain ⟨⟨hreg, hstruct⟩, hfields⟩ := htyped
      simp only [Serializes] at hser
      obtain ⟨hkey, hdoc⟩ := hser
      have hsmall : ∀ n, FieldVal.iface n ∈ xs →
          sizeOf n ≤ size ∧ n.typed r = true := by
        intro n hn
        have hlt := List.sizeOf_lt_of_mem hn
        simp only [Node.ptr.sizeOf_spec, FieldVal.iface.sizeOf_spec] at hsize hlt
        exact ⟨by omega, fieldsTyped_nested hfields n hn⟩
      constructor
      · rw [unpackStruct_tagged hkey hreg hstruct,
          unpackFields_serialized hfields hdoc
            (fun n sub hn hs => (ih n sub (hsmall n hn).1 (hsmall n hn).2 hs).1)]
        rfl
      · simp only [shape, fillNode,
          fillFields_serialized hfields hdoc
            (fun n sub hn hs => (ih n sub (hsmall n hn).1 (hsmall n hn).2 hs).2)]

/-- The decode of a document that serializes a well-typed graph is the skeleton
of the graph, and the filler completes that skeleton to the graph. -/
theorem round_trip (r : Reflector) (key : String) (g : Node) (doc : Object)
    (htyped : g.typed r = true) (hser : Serializes key g doc) :
    unpackStruct r key doc = .ok (shape g) ∧ fillNode doc (shape g) = .ok g :=
  round_trip_aux r key (sizeOf g) g doc (Nat.le_refl _) htyped hser

/-- No document serializes `plusExpr` with the key `op`: the entry `op` would
have to be both `"BinaryExpr"` and `"+"`. -/
theorem plusExpr_not_serializable (doc : Object) : ¬ Serializes "op" plusExpr doc := by
  intro h
  simp only [plusExpr, Serializes, FieldsSerialized, FieldSerialized] at h
  have h1 := h.1
  have hfield : mapGet doc "op" = some (.string "+") := h.2.1
  rw [h1] at hfield
  simp only [Option.some.injEq, Value.string.injEq] at hfield
  exact absurd hfield (by decide)

/-- C13 (round trip).  For every typed object graph built from registered
struct types whose fields are scalars or interfaces holding nodes, and every
text that parses to a document that serializes the graph with the
discriminator key carrying the name of the type of each node, `Unpack`, with
the scalar fill that the specification describes, returns the graph; the
skeleton that `UnpackSkeleton` returns on the way is the graph without its
scalars. -/
theorem Unpack_round_trip (parse : String → Except String Value) (r : Reflector)
    (key src : String) (g : Node) (doc : Object) (htyped : g.typed r = true)
    (hparse : parse src = .ok (.object doc)) (hser : Serializes key g doc) :
    UnpackSkeleton parse r key src = .ok (shape g) ∧
      Unpack parse (specFill parse) r key src = .ok g := by
  obtain ⟨hdecode, hfill⟩ := round_trip r key g doc htyped hser
  have hskel : UnpackSkeleton parse r key src = .ok (shape g) := by
    simp only [UnpackSkeleton, hparse, hdecode]
  refine ⟨hskel, ?_⟩
  simp only [Unpack, hskel, specFill, hparse, hfill]

/-- Witness of C13: the documents `test1` and `test2` serialize the graphs
`expected1` and `expected2` of the tests, and `Unpack` returns these graphs. -/
theorem Unpack_round_trip_witness :
    Unpack (fun _ => .ok (.object test1)) (specFill (fun _ => .ok (.object test1)))
          testReflector "op" "test1" = .ok expected1 ∧
      Unpack (fun _ => .ok (.object test2)) (specFill (fun _ => .ok (.object test2)))
          testReflector "op" "test2" = .ok expected2 :=
  ⟨(Unpack_round_trip (fun _ => .ok (.object test1)) testReflector "op" "test1" expected1
      test1 (by decide) rfl
      ⟨rfl, rfl, ⟨rfl, rfl, trivial⟩, ⟨rfl, rfl, trivial⟩, trivial⟩).2,
    (Unpack_round_trip (fun _ => .ok (.object test2)) testReflector "op" "test2" expected2
      test2 (by decide) rfl
      ⟨rfl, rfl, ⟨rfl, rfl, ⟨rfl, rfl, trivial⟩, trivial⟩,
        ⟨rfl, rfl, ⟨rfl, rfl, trivial⟩, ⟨rfl, rfl, trivial⟩, trivial⟩, trivial⟩).2⟩



end Unpack
